import Mathlib

/-!
Verification of the Codeloop-Compyle backend route logic.

The Express/Mongoose handlers are shallowly embedded: each MongoDB
collection is a `List` of records, a Mongo query is the corresponding
decidable filter (equality of a scalar against an array-valued field is
containment, Mongo's semantics), and each handler becomes a pure function
from the request plus the database state to a result value.  JavaScript
numbers that carry scores are modelled as `ℚ`; calendar days (the
`YYYY-MM-DD` strings produced by `$dateToString`) and timestamps are
modelled as `ℤ`; Mongo ObjectIds are `String`s.  JavaScript `Set`s used by
the cycle check are lists without duplicates, `Array.prototype.sort` /
Mongo sorts are embedded with `List.insertionSort` (only the ordering,
never the identity of ties, is ever relevant below), and JavaScript
object-literal semantics (a duplicated key keeps only the last binding)
are reproduced where the source relies on them.
-/

namespace Compyle

/-- A document of the `modules` collection (`src/backend/src/models`),
with the fields the route handlers in `routes/modules.js` read. -/
structure ModuleRec where
  id : String
  title : String
  description : Option String
  department : String
  groups : List String
  createdBy : String
  difficulty : String
  estimatedHours : Option Int
  tags : List String
  prerequisites : List String
  questions : List String
  notes : List String
  sortOrder : Int
  isActive : Bool
  createdAt : Int
deriving DecidableEq

/-- The requesting user, after `User.findById(req.user.id).populate('role')`. -/
structure UserRec where
  id : String
  roleName : String
  department : String
  groups : List String
deriving DecidableEq

/-- A `departments` document, with the fields read by the handlers. -/
structure DepartmentRec where
  id : String
  isActive : Bool
deriving DecidableEq

/-- A `groups` document, with the fields read by the handlers. -/
structure GroupRec where
  id : String
  department : String
  teacher : String
  isActive : Bool
deriving DecidableEq

/-- A `questions` document, with the fields read by the handlers.
`department` is optional because `modules.js` guards with
`!question.department`. -/
structure QuestionRec where
  id : String
  department : Option String
  isActive : Bool
deriving DecidableEq

/-- An `assessments` document, with the fields read by the handlers. -/
structure AssessmentRec where
  id : String
  modules : List String
  isActive : Bool
deriving DecidableEq

/-- A member of `AssessmentSubmission` with `status: 'submitted'`,
as used by the assessment analytics (`totalScore` is a JS number). -/
structure SubmissionRec where
  totalScore : ℚ
deriving DecidableEq

/-- One bucket of the `dailyActivity` aggregation in the student
analytics: `_id` is a `YYYY-MM-DD` string, modelled as a day index. -/
structure ActivityRec where
  day : Int
  activityCount : Nat
deriving DecidableEq

/-! ## Analytics helpers (`src/unnamed/part_001`, lines 991-1013) -/

/-- `calculateMedian` (part_001 lines 1009-1013): sort ascending with the
numeric comparator, take the middle element for odd length or the mean of
the two middle elements for even length.  The out-of-range reads of the
JS source (possible only on the empty list) are modelled by `getD _ 0`. -/
def calculateMedian (numbers : List ℚ) : ℚ :=
  let sorted := List.insertionSort (· ≤ ·) numbers
  let mid := sorted.length / 2
  if sorted.length % 2 ≠ 0 then sorted.getD mid 0
  else (sorted.getD (mid - 1) 0 + sorted.getD mid 0) / 2

/-- The body of the `while` loop of `calculateCurrentStreak`
(part_001 lines 997-1004): starting at `d`, count down one calendar day
at a time while the day is among `dates`.  The source loop terminates
because consecutive distinct days cannot all lie in the finite `dates`;
the fuel given below strictly exceeds any possible count. -/
def streakLoop : Nat → Int → List Int → Nat
  | 0, _, _ => 0
  | fuel + 1, d, dates => if dates.contains d then streakLoop fuel (d - 1) dates + 1 else 0

/-- `calculateCurrentStreak` (part_001 lines 991-1007).  `today` stands
for `new Date().toISOString().split('T')[0]`. -/
def calculateCurrentStreak (today : Int) (dailyActivity : List ActivityRec) : Nat :=
  if dailyActivity.length = 0 then 0
  else
    let sortedDates := List.insertionSort (· ≤ ·) (dailyActivity.map (·.day))
    streakLoop (dailyActivity.length + 1) today sortedDates

/-- The five labelled buckets of the assessment analytics
(part_001 lines 748-754): `(label, min, max)`. -/
def scoreRanges : List (String × ℚ × ℚ) :=
  [("0-20", 0, 20), ("21-40", 21, 40), ("41-60", 41, 60), ("61-80", 61, 80), ("81-100", 81, 100)]

/-- The percentage score of a submission (part_001 line 759). -/
def percentageOf (totalPoints : ℚ) (s : SubmissionRec) : ℚ :=
  s.totalScore / totalPoints * 100

/-- Whether a submission falls into a bucket (part_001 line 760). -/
def inScoreRange (totalPoints : ℚ) (r : String × ℚ × ℚ) (s : SubmissionRec) : Bool :=
  decide (r.2.1 ≤ percentageOf totalPoints s) && decide (percentageOf totalPoints s ≤ r.2.2)

/-- `scoreDistribution` (part_001 lines 756-762): one
`(label, count)` pair per bucket. -/
def scoreDistribution (totalPoints : ℚ) (submissions : List SubmissionRec) :
    List (String × Nat) :=
  scoreRanges.map fun r => (r.1, (submissions.filter (inScoreRange totalPoints r)).length)

/-- How many of the five buckets count a given submission. -/
def rangesCounting (totalPoints : ℚ) (s : SubmissionRec) : Nat :=
  (scoreRanges.filter (fun r => inScoreRange totalPoints r s)).length

/-! ## Notices (`src/backend/src/routes/notices.js`) -/

/-- An entry of a notice's `readBy` array. -/
structure ReadEntry where
  user : String
  readAt : Int
deriving DecidableEq

/-- A `notices` document, with the fields read by the handlers. -/
structure NoticeRec where
  id : String
  title : String
  content : String
  postedBy : String
  targetType : String
  targetRoles : List String
  department : Option String
  groups : List String
  priority : String
  expiresAt : Option Int
  isActive : Bool
  readBy : List ReadEntry
  createdAt : Int
deriving DecidableEq

/-- ASCII whitespace, for the embedding of `String.prototype.trim`. -/
def isWhitespaceChar (c : Char) : Bool :=
  c == ' ' || c == '\t' || c == '\n' || c == '\r'

/-- `String.prototype.trim`: strip leading and trailing whitespace. -/
def strTrim (s : String) : String :=
  ⟨((s.data.dropWhile isWhitespaceChar).reverse.dropWhile isWhitespaceChar).reverse⟩

/-- ASCII lower-casing of one character. -/
def charLower (c : Char) : Char :=
  if 'A' ≤ c && c ≤ 'Z' then Char.ofNat (c.toNat + 32) else c

/-- `String.prototype.toLowerCase` (over the ASCII range). -/
def strLower (s : String) : String := ⟨s.data.map charLower⟩

/-- `express-validator`'s `isMongoId`: 24 hexadecimal characters. -/
def isMongoId (s : String) : Bool :=
  s.length == 24 &&
    s.data.all (fun c => c.isDigit || ('a' ≤ c && c ≤ 'f') || ('A' ≤ c && c ≤ 'F'))

/-- Whether the first character sequence starts the second. -/
def startsWithSeq : List Char → List Char → Bool
  | [], _ => true
  | _ :: _, [] => false
  | a :: as, b :: bs => a == b && startsWithSeq as bs

/-- Whether the first character sequence occurs inside the second. -/
def containsSeq : List Char → List Char → Bool
  | needle, [] => startsWithSeq needle []
  | needle, c :: rest => startsWithSeq needle (c :: rest) || containsSeq needle rest

/-- Case-insensitive substring test, the embedding of an
`{$regex: needle, $options: 'i'}` match against a plain search string. -/
def matchesCI (needle hay : String) : Bool :=
  containsSeq (strLower needle).data (strLower hay).data

/-- The one `$or` key of the notices list query.  The JS handler assigns
`query.$or` twice on the staff paths (search first, then the role-based
access conditions), and an object literal keeps only the last assignment,
which this single field reproduces. -/
inductive NoticeOr
  | search (s : String)
  | hodAccess (roleName : String) (department : String)
  | teacherAccess (roleName : String) (groups : List String)
deriving DecidableEq

def matchesNoticeOr (c : NoticeOr) (n : NoticeRec) : Bool :=
  match c with
  | .search s => matchesCI s n.title || matchesCI s n.content
  | .hodAccess role dept =>
      (n.targetType == "all") ||
      (n.targetType == "role" && n.targetRoles.contains role) ||
      (n.targetType == "department" && n.department == some dept)
  | .teacherAccess role gids =>
      (n.targetType == "all") ||
      (n.targetType == "role" && n.targetRoles.contains role) ||
      (n.targetType == "group" && n.groups.any (fun g => gids.contains g))

/-- The query object built by `GET /api/notices` (lines 113-203).
`expiryAfter` is the always-pushed `$and` block filtering out expired
notices at time `now`. -/
structure NoticeQuery where
  isActive : Bool
  orCond : Option NoticeOr
  department : Option String
  groups : Option String
  targetType : Option String
  priority : Option String
  postedBy : Option String
  expiryAfter : Int
deriving DecidableEq

def matchesNoticeQuery (q : NoticeQuery) (n : NoticeRec) : Bool :=
  (n.isActive == q.isActive) &&
  (match q.orCond with | none => true | some c => matchesNoticeOr c n) &&
  (match q.department with | none => true | some d => n.department == some d) &&
  (match q.groups with | none => true | some g => n.groups.contains g) &&
  (match q.targetType with | none => true | some t => n.targetType == t) &&
  (match q.priority with | none => true | some p => n.priority == p) &&
  (match q.postedBy with | none => true | some u => n.postedBy == u) &&
  (match n.expiresAt with | none => true | some e => decide (q.expiryAfter < e))

/-- The `req.query` parameters of `GET /api/notices`. -/
structure NoticeListParams where
  page : Nat
  limit : Nat
  search : Option String
  department : Option String
  group : Option String
  targetType : Option String
  priority : Option String
  unread : Option String
  isActive : Option String
  postedBy : Option String
deriving DecidableEq

/-- The query construction of `GET /api/notices` (lines 113-182), with the
assignments performed in source order; the final `let` reproduces the
role-branch overwrite of `query.$or`. -/
def buildNoticeQuery (u : UserRec) (p : NoticeListParams) (now : Int) : NoticeQuery :=
  let q : NoticeQuery :=
    { isActive := true, orCond := none, department := none, groups := none,
      targetType := none, priority := none, postedBy := none, expiryAfter := now }
  let q := match p.search with | some s => { q with orCond := some (.search s) } | none => q
  let q := match p.department with | some d => { q with department := some d } | none => q
  let q := match p.group with | some g => { q with groups := some g } | none => q
  let q := match p.targetType with | some t => { q with targetType := some t } | none => q
  let q := match p.priority with | some pr => { q with priority := some pr } | none => q
  let q := match p.isActive with | some s => { q with isActive := s == "true" } | none => q
  let q := match p.postedBy with | some pb => { q with postedBy := some pb } | none => q
  if u.roleName == "Admin" then q
  else if u.roleName == "HOD" then { q with orCond := some (.hodAccess u.roleName u.department) }
  else { q with orCond := some (.teacherAccess u.roleName u.groups) }

/-- The Mongo sort `{ priority: -1, createdAt: -1 }` (both are compared as
stored values, the priority being a string). -/
def noticeOrder (a b : NoticeRec) : Prop :=
  b.priority < a.priority ∨ (a.priority = b.priority ∧ b.createdAt ≤ a.createdAt)

instance : DecidableRel noticeOrder := fun a b => by
  unfold noticeOrder; infer_instance

/-- The Admin/HOD/Teacher path of `GET /api/notices` (lines 96-246):
filter, sort, paginate, then drop already-read notices when
`unread === 'true'`.  (The Student path goes through the
`Notice.findByUser` model helper instead and is not embedded here.) -/
def listNoticesStaff (db : List NoticeRec) (u : UserRec) (p : NoticeListParams)
    (now : Int) : List NoticeRec :=
  let q := buildNoticeQuery u p now
  let notices :=
    (((db.filter (matchesNoticeQuery q)).insertionSort noticeOrder).drop
        ((p.page - 1) * p.limit)).take p.limit
  if p.unread == some "true" then
    notices.filter (fun n => ! n.readBy.any (fun e => e.user == u.id))
  else notices

/-- The `req.body` of `POST /api/notices`; absent fields are `none`, and
`targetRoles`/`groups` default to `[]` at the destructuring. -/
structure CreateNoticeBody where
  title : String
  content : String
  targetType : String
  targetRoles : List String
  department : Option String
  groups : List String
  priority : Option String
  expiresAt : Option Int
deriving DecidableEq

/-- `createNoticeValidation` (notices.js lines 12-60). -/
def validNoticeBody (now : Int) (b : CreateNoticeBody) : Bool :=
  (!(strTrim b.title == "")) && decide ((strTrim b.title).length ≤ 200) &&
  (!(strTrim b.content == "")) &&
  (["all", "department", "group", "role"].contains b.targetType) &&
  (b.targetRoles.all fun r => ["Admin", "HOD", "Teacher", "Student"].contains r) &&
  (match b.department with | none => true | some d => isMongoId d) &&
  (b.groups.all isMongoId) &&
  (match b.priority with | none => true | some pr => ["low", "medium", "high"].contains pr) &&
  (match b.expiresAt with | none => true | some e => decide (now < e))

inductive CreateNoticeResult
  | validationFailed
  | departmentRequired
  | groupRequired
  | roleRequired
  | departmentNotFound
  | wrongDepartment
  | invalidGroups
  | notTeachersGroup
  | created (n : NoticeRec)
deriving DecidableEq

/-- The HTTP status each outcome of `POST /api/notices` is sent with. -/
def createNoticeStatus : CreateNoticeResult → Nat
  | .created _ => 201
  | .wrongDepartment => 403
  | .notTeachersGroup => 403
  | _ => 400

def isCreatedNotice : CreateNoticeResult → Bool
  | .created _ => true
  | _ => false

/-- `POST /api/notices` (lines 321-446): validation, the target-specific
requirement checks, department validation with the HOD restriction, group
validation with the Teacher restriction, then persistence. -/
def createNotice (dbDepartments : List DepartmentRec) (dbGroups : List GroupRec)
    (user : UserRec) (now : Int) (newId : String) (b : CreateNoticeBody) :
    CreateNoticeResult :=
  if !(validNoticeBody now b) then .validationFailed
  else if b.targetType == "department" && b.department.isNone then .departmentRequired
  else if b.targetType == "group" && b.groups.isEmpty then .groupRequired
  else if b.targetType == "role" && b.targetRoles.isEmpty then .roleRequired
  else
    let deptCheck : Option CreateNoticeResult :=
      match b.department with
      | none => none
      | some d =>
        match dbDepartments.find? (fun dd => dd.id == d) with
        | none => some .departmentNotFound
        | some dd =>
          if !dd.isActive then some .departmentNotFound
          else if user.roleName == "HOD" && !(dd.id == user.department) then
            some .wrongDepartment
          else none
    match deptCheck with
    | some r => r
    | none =>
      let groupCheck : Option CreateNoticeResult :=
        if b.groups.length > 0 then
          let validGroups := dbGroups.filter fun g => b.groups.contains g.id && g.isActive
          if !(validGroups.length == b.groups.length) then some .invalidGroups
          else if user.roleName == "Teacher" &&
              !((validGroups.filter fun g => g.teacher == user.id).length
                  == validGroups.length) then
            some .notTeachersGroup
          else none
        else none
      match groupCheck with
      | some r => r
      | none =>
        .created
          { id := newId, title := strTrim b.title, content := strTrim b.content,
            postedBy := user.id, targetType := b.targetType,
            targetRoles := b.targetRoles, department := b.department,
            groups := b.groups, priority := b.priority.getD "medium",
            expiresAt := b.expiresAt, isActive := true, readBy := [],
            createdAt := now }

/-! ## Modules (`src/backend/src/routes/modules.js`) -/

/-- The two mutable `Set`s of `checkCircularDependency`
(modules.js lines 1134-1135): `visited` persists across the whole call,
`recStack` holds the nodes of the current DFS chain. -/
structure DfsState where
  visited : List String
  recStack : List String
deriving DecidableEq

/-- The prerequisites of the (first) fetched module with the given id
(modules.js lines 1148-1149); an id with no fetched module contributes no
edges. -/
def succsOf (mods : List ModuleRec) (cur : String) : List String :=
  match mods.find? (fun m => m.id == cur) with
  | some m => m.prerequisites
  | none => []

/-- Iterate a DFS step over a list of nodes, threading the state and
stopping at the first `true` — the shape of both the `for` loop over
`currentModule.prerequisites` (lines 1150-1155) and the outer loop over
`moduleIds` (lines 1166-1170). -/
def runList (step : DfsState → String → Bool × DfsState) :
    DfsState → List String → Bool × DfsState
  | st, [] => (false, st)
  | st, p :: ps =>
    let r := step st p
    if r.1 then (true, r.2) else runList step r.2 ps

/-- The recursive `hasCycle` of `checkCircularDependency`
(modules.js lines 1137-1159), with the recursion depth bounded by fuel;
each frame that recurses first adds a fresh node to `visited`, so the
fuel chosen in `checkCircularDependency` is never exhausted. -/
def hasCycleAux (mods : List ModuleRec) : Nat → DfsState → String → Bool × DfsState
  | 0, st, _ => (false, st)
  | fuel + 1, st, cur =>
    if st.recStack.contains cur then (true, st)
    else if st.visited.contains cur then (false, st)
    else
      let st1 : DfsState := ⟨cur :: st.visited, cur :: st.recStack⟩
      let r := runList (hasCycleAux mods fuel) st1 (succsOf mods cur)
      if r.1 then (true, r.2)
      else (false, ⟨r.2.visited, r.2.recStack.erase cur⟩)

/-- The `Module.find({_id: {$in: moduleIds}, department})` fetch of
`checkCircularDependency` (modules.js lines 1161-1164). -/
def fetchModules (db : List ModuleRec) (departmentId : String)
    (moduleIds : List String) : List ModuleRec :=
  db.filter fun m => moduleIds.contains m.id && m.department == departmentId

/-- `checkCircularDependency` (modules.js lines 1133-1173). -/
def checkCircularDependency (db : List ModuleRec) (departmentId : String)
    (moduleIds : List String) : Bool :=
  let mods := fetchModules db departmentId moduleIds
  let fuel := moduleIds.length + (mods.map fun m => m.prerequisites.length).sum + 2
  (runList (hasCycleAux mods fuel) ⟨[], []⟩ moduleIds).1

/-- The edge relation of the prerequisite graph the DFS walks: from a
node to each prerequisite of its (first) fetched module. -/
def CycleEdge (mods : List ModuleRec) (x y : String) : Prop :=
  y ∈ succsOf mods x

/-- The prerequisite graph named by the spec sentence of C1, over a whole
module collection: an edge runs from each module to each of its
prerequisite modules. -/
def prereqEdge (db : List ModuleRec) (x y : String) : Prop :=
  ∃ m ∈ db, m.id = x ∧ y ∈ m.prerequisites

/-- A DFS stack (top first) whose consecutive entries are graph edges
from the deeper entry to the shallower one. -/
def stackChain (mods : List ModuleRec) : List String → Prop
  | [] => True
  | [_] => True
  | a :: b :: l => CycleEdge mods b a ∧ stackChain mods (b :: l)

/-- The node under exploration is a successor of the stack top (trivial
for the outer loop, whose stack is empty). -/
def headConnected (mods : List ModuleRec) (stk : List String) (cur : String) : Prop :=
  match stk with
  | [] => True
  | t :: _ => CycleEdge mods t cur

/-- A node the DFS has fully explored: visited and off the stack. -/
def finishedIn (st : DfsState) (u : String) : Prop :=
  u ∈ st.visited ∧ u ∉ st.recStack

/-- The node can reach a cycle of the graph. -/
def ReachCycle (mods : List ModuleRec) (u : String) : Prop :=
  ∃ w, Relation.ReflTransGen (CycleEdge mods) u w ∧
    Relation.TransGen (CycleEdge mods) w w

/-- The invariant the DFS maintains: a finished node's successors are
finished, and a finished node cannot reach a cycle. -/
def DfsInv (mods : List ModuleRec) (st : DfsState) : Prop :=
  ∀ u, finishedIn st u →
    (∀ w, CycleEdge mods u w → finishedIn st w) ∧ ¬ ReachCycle mods u

/-- How many candidate nodes are still unvisited: the bound on the depth
of the DFS recursion. -/
def dfsMeasure (U : List String) (st : DfsState) : Nat :=
  (U.toFinset \ st.visited.toFinset).card

/-- A DFS step that, on a `false` verdict, restores the stack and only
grows the visited set. -/
def StackContract (step : DfsState → String → Bool × DfsState) : Prop :=
  ∀ st cur, (step st cur).1 = false →
    (step st cur).2.recStack = st.recStack ∧ st.visited ⊆ (step st cur).2.visited

/-- A DFS step whose `true` verdict, reached from a chained stack,
certifies a cycle. -/
def SoundContract (mods : List ModuleRec)
    (step : DfsState → String → Bool × DfsState) : Prop :=
  ∀ st cur, stackChain mods st.recStack → headConnected mods st.recStack cur →
    (step st cur).1 = true → ∃ v, Relation.TransGen (CycleEdge mods) v v

/-- A DFS step that, on a `false` verdict from an invariant-respecting
state with spare fuel, finishes its argument node and preserves the
invariant. -/
def CompleteContract (mods : List ModuleRec) (U : List String) (fuel : Nat)
    (step : DfsState → String → Bool × DfsState) : Prop :=
  ∀ st cur, dfsMeasure U st + 1 < fuel → st.recStack ⊆ st.visited →
    DfsInv mods st → cur ∈ U → (step st cur).1 = false →
    ((step st cur).2.recStack = st.recStack ∧
     st.visited ⊆ (step st cur).2.visited ∧
     DfsInv mods (step st cur).2 ∧
     dfsMeasure U (step st cur).2 ≤ dfsMeasure U st ∧
     finishedIn (step st cur).2 cur)

/-! ### The modules list query (`GET /api/modules`, lines 128-264) -/

/-- The one `$or` key of the modules list query; the Teacher role branch
(line 197) overwrites the search block (line 156) when both occur,
which keeping a single field reproduces. -/
inductive ModOr
  | search (s : String)
  | teacherAccess (createdBy : String) (groups : List String)
deriving DecidableEq

/-- The one `groups` key of the modules list query: the Student role
branch assigns `{$in: user.groups}` (line 203) and the group filter
assigns a plain id (line 208). -/
inductive ModGroupsCond
  | inList (gids : List String)
  | eq (g : String)
deriving DecidableEq

structure ModQuery where
  isActive : Bool
  orCond : Option ModOr
  department : Option String
  difficulty : Option String
  createdBy : Option String
  tags : Option (List String)
  hasQuestions : Bool
  groupsCond : Option ModGroupsCond
deriving DecidableEq

def matchesModOr (c : ModOr) (m : ModuleRec) : Bool :=
  match c with
  | .search s =>
      matchesCI s m.title ||
      (match m.description with | some d => matchesCI s d | none => false) ||
      m.tags.any (fun t => matchesCI s t)
  | .teacherAccess cb gids =>
      (m.createdBy == cb) || m.groups.any (fun g => gids.contains g)

def matchesModQuery (q : ModQuery) (m : ModuleRec) : Bool :=
  (m.isActive == q.isActive) &&
  (match q.orCond with | none => true | some c => matchesModOr c m) &&
  (match q.department with | none => true | some d => m.department == d) &&
  (match q.difficulty with | none => true | some d => m.difficulty == d) &&
  (match q.createdBy with | none => true | some c => m.createdBy == c) &&
  (match q.tags with | none => true | some arr => m.tags.any (fun t => arr.contains t)) &&
  (!q.hasQuestions || !m.questions.isEmpty) &&
  (match q.groupsCond with
    | none => true
    | some (.inList gids) => m.groups.any (fun g => gids.contains g)
    | some (.eq g) => m.groups.contains g)

/-- The `req.query` parameters of `GET /api/modules` (lines 131-142). -/
structure ModListParams where
  page : Nat
  limit : Nat
  search : Option String
  department : Option String
  group : Option String
  difficulty : Option String
  createdBy : Option String
  tags : Option (List String)
  isActive : Option String
  hasQuestions : Option String
deriving DecidableEq

/-- The parameter-driven part of the query build (lines 145-187).  Each
JS assignment targets a distinct key, so the successive assignments are
one record literal. -/
def modParamsQuery (p : ModListParams) : ModQuery where
  isActive := match p.isActive with | some s => s == "true" | none => true
  orCond := match p.search with | some s => some (.search s) | none => none
  department := p.department
  difficulty := p.difficulty
  createdBy := p.createdBy
  tags := p.tags
  hasQuestions := p.hasQuestions == some "true"
  groupsCond := none

/-- The role-based access control assignments (lines 189-204). -/
def modRoleQuery (u : UserRec) (q : ModQuery) : ModQuery :=
  if u.roleName == "Admin" then q
  else if u.roleName == "HOD" then { q with department := some u.department }
  else if u.roleName == "Teacher" then
    { q with orCond := some (.teacherAccess u.id u.groups) }
  else { q with groupsCond := some (.inList u.groups) }

/-- The group filter applied for Admin/HOD/Teacher (lines 206-209). -/
def modGroupOverride (u : UserRec) (p : ModListParams) (q : ModQuery) : ModQuery :=
  match p.group with
  | some g =>
    if ["Admin", "HOD", "Teacher"].contains u.roleName then
      { q with groupsCond := some (.eq g) }
    else q
  | none => q

def buildModQuery (u : UserRec) (p : ModListParams) : ModQuery :=
  modGroupOverride u p (modRoleQuery u (modParamsQuery p))

/-- The Mongo sort `{ sortOrder: 1, createdAt: -1 }` (line 215). -/
def moduleOrder (a b : ModuleRec) : Prop :=
  a.sortOrder < b.sortOrder ∨ (a.sortOrder = b.sortOrder ∧ b.createdAt ≤ a.createdAt)

instance : DecidableRel moduleOrder := fun a b => by
  unfold moduleOrder; infer_instance

/-- `GET /api/modules` (lines 128-256): filter, sort, paginate. -/
def listModules (db : List ModuleRec) (u : UserRec) (p : ModListParams) :
    List ModuleRec :=
  let q := buildModQuery u p
  (((db.filter (matchesModQuery q)).insertionSort moduleOrder).drop
      ((p.page - 1) * p.limit)).take p.limit

/-- The role-based lookup of `GET /api/modules/:id` (lines 284-307);
`none` is the 404 response. -/
def getModuleById (db : List ModuleRec) (u : UserRec) (id : String) :
    Option ModuleRec :=
  if u.roleName == "Admin" then db.find? (fun m => m.id == id)
  else if u.roleName == "HOD" then
    db.find? (fun m => m.id == id && m.department == u.department)
  else if u.roleName == "Teacher" then
    db.find? (fun m => m.id == id &&
      (m.createdBy == u.id || m.groups.any (fun g => u.groups.contains g)))
  else db.find? (fun m => m.id == id && m.groups.any (fun g => u.groups.contains g))

/-- The shared role-based lookup of PUT/DELETE/question/note handlers
(Admin by id, HOD also by department, Teacher also by creator, `none`
for every other role). -/
def findModuleForManage (db : List ModuleRec) (u : UserRec) (id : String) :
    Option ModuleRec :=
  if u.roleName == "Admin" then db.find? (fun m => m.id == id)
  else if u.roleName == "HOD" then
    db.find? (fun m => m.id == id && m.department == u.department)
  else if u.roleName == "Teacher" then
    db.find? (fun m => m.id == id && m.createdBy == u.id)
  else none

/-! ### `POST /api/modules` (lines 356-485) -/

/-- The `req.body` of `POST /api/modules`; optional fields are `none`,
array fields default to `[]` at the destructuring. -/
structure CreateModuleBody where
  title : String
  description : Option String
  department : String
  groups : List String
  difficulty : Option String
  estimatedHours : Option Int
  tags : List String
  prerequisites : List String
  sortOrder : Option Int
deriving DecidableEq

/-- `createModuleValidation` (modules.js lines 12-64). -/
def validCreateModuleBody (b : CreateModuleBody) : Bool :=
  (!(strTrim b.title == "")) && decide ((strTrim b.title).length ≤ 200) &&
  (match b.description with | none => true | some d => decide ((strTrim d).length ≤ 2000)) &&
  isMongoId b.department &&
  (b.groups.all isMongoId) &&
  (match b.difficulty with
    | none => true
    | some d => ["beginner", "intermediate", "advanced"].contains d) &&
  (match b.estimatedHours with | none => true | some h => decide (1 ≤ h ∧ h ≤ 200)) &&
  (b.tags.all fun t => decide ((strTrim t).length ≤ 50)) &&
  (b.prerequisites.all isMongoId) &&
  (match b.sortOrder with | none => true | some o => decide (0 ≤ o))

inductive CreateModuleResult
  | validationFailed
  | departmentNotFound
  | wrongDepartment
  | invalidGroups
  | notTeachersGroup
  | invalidPrereqs
  | circularDependency
  | created (m : ModuleRec)
deriving DecidableEq

/-- The HTTP status each outcome of `POST /api/modules` is sent with. -/
def createModuleStatus : CreateModuleResult → Nat
  | .created _ => 201
  | .wrongDepartment => 403
  | .notTeachersGroup => 403
  | _ => 400

/-- The group validation block of `POST /api/modules` (lines 397-425):
`none` means the request passes it. -/
def createGroupCheck (dbGroups : List GroupRec) (user : UserRec)
    (department : String) (groups : List String) : Option CreateModuleResult :=
  if groups.length > 0 then
    let validGroups := dbGroups.filter fun g =>
      groups.contains g.id && g.department == department && g.isActive
    if !(validGroups.length == groups.length) then some .invalidGroups
    else if user.roleName == "Teacher" &&
        !((validGroups.filter fun g => g.teacher == user.id).length
            == validGroups.length) then
      some .notTeachersGroup
    else none
  else none

/-- The prerequisite validation block of `POST /api/modules`
(lines 427-450): `none` means the request passes it. -/
def createPrereqCheck (dbModules : List ModuleRec) (department : String)
    (prerequisites : List String) : Option CreateModuleResult :=
  if prerequisites.length > 0 then
    let validPrereqs := dbModules.filter fun m =>
      prerequisites.contains m.id && m.department == department && m.isActive
    if !(validPrereqs.length == prerequisites.length) then some .invalidPrereqs
    else if checkCircularDependency dbModules department prerequisites then
      some .circularDependency
    else none
  else none

/-- `POST /api/modules` (lines 356-485): validation, department lookup,
the HOD department restriction, group validation with the Teacher
restriction, prerequisite validation with the circular-dependency check,
then construction of the new module. -/
def createModule (dbDepartments : List DepartmentRec) (dbGroups : List GroupRec)
    (dbModules : List ModuleRec) (user : UserRec) (newId : String) (now : Int)
    (b : CreateModuleBody) : CreateModuleResult :=
  if !(validCreateModuleBody b) then .validationFailed
  else
    match dbDepartments.find? (fun dd => dd.id == b.department) with
    | none => .departmentNotFound
    | some dd =>
      if !dd.isActive then .departmentNotFound
      else if user.roleName == "HOD" && !(dd.id == user.department) then .wrongDepartment
      else
        match createGroupCheck dbGroups user b.department b.groups with
        | some r => r
        | none =>
          match createPrereqCheck dbModules b.department b.prerequisites with
          | some r => r
          | none =>
            .created
              { id := newId, title := strTrim b.title,
                description := b.description.map strTrim,
                department := b.department, groups := b.groups,
                createdBy := user.id,
                difficulty := b.difficulty.getD "beginner",
                estimatedHours := b.estimatedHours,
                tags := b.tags.map (fun t => strLower (strTrim t)),
                prerequisites := b.prerequisites, questions := [], notes := [],
                sortOrder := b.sortOrder.getD 0, isActive := true,
                createdAt := now }

/-! ### `PUT /api/modules/:id` (lines 488-621) -/

/-- The `req.body` of `PUT /api/modules/:id`; every allowed field is
optional. -/
structure UpdateModuleBody where
  title : Option String
  description : Option String
  groups : Option (List String)
  difficulty : Option String
  estimatedHours : Option Int
  tags : Option (List String)
  prerequisites : Option (List String)
  sortOrder : Option Int
deriving DecidableEq

/-- `updateModuleValidation` (modules.js lines 66-116). -/
def validUpdateModuleBody (b : UpdateModuleBody) : Bool :=
  (match b.title with
    | none => true
    | some t => (!(strTrim t == "")) && decide ((strTrim t).length ≤ 200)) &&
  (match b.description with | none => true | some d => decide ((strTrim d).length ≤ 2000)) &&
  (match b.groups with | none => true | some gs => gs.all isMongoId) &&
  (match b.difficulty with
    | none => true
    | some d => ["beginner", "intermediate", "advanced"].contains d) &&
  (match b.estimatedHours with | none => true | some h => decide (1 ≤ h ∧ h ≤ 200)) &&
  (match b.tags with | none => true | some ts => ts.all fun t => decide ((strTrim t).length ≤ 50)) &&
  (match b.prerequisites with | none => true | some ps => ps.all isMongoId) &&
  (match b.sortOrder with | none => true | some o => decide (0 ≤ o))

inductive UpdateModuleResult
  | validationFailed
  | notFound
  | invalidGroups
  | notTeachersGroup
  | invalidPrereqs
  | circularDependency
  | updated (m : ModuleRec)
deriving DecidableEq

/-- The HTTP status each outcome of `PUT /api/modules/:id` is sent with. -/
def updateModuleStatus : UpdateModuleResult → Nat
  | .updated _ => 200
  | .notFound => 404
  | .notTeachersGroup => 403
  | _ => 400

/-- Applying `updateData` to the found module (lines 503-519 build the
data, `findByIdAndUpdate` at line 600 applies it). -/
def applyModuleUpdate (b : UpdateModuleBody) (m : ModuleRec) : ModuleRec :=
  { m with
    title := match b.title with | some t => strTrim t | none => m.title,
    description := match b.description with | some d => some (strTrim d) | none => m.description,
    groups := b.groups.getD m.groups,
    difficulty := b.difficulty.getD m.difficulty,
    estimatedHours := match b.estimatedHours with | some h => some h | none => m.estimatedHours,
    tags := match b.tags with
      | some ts => ts.map (fun t => strLower (strTrim t))
      | none => m.tags,
    prerequisites := b.prerequisites.getD m.prerequisites,
    sortOrder := match b.sortOrder with | some o => o | none => m.sortOrder }

/-- The group validation block of `PUT /api/modules/:id` (lines 541-569),
against the found module's department: `none` means it passes. -/
def updateGroupCheck (dbGroups : List GroupRec) (user : UserRec)
    (department : String) (groups : Option (List String)) :
    Option UpdateModuleResult :=
  match groups with
  | none => none
  | some gs =>
    let validGroups := dbGroups.filter fun g =>
      gs.contains g.id && g.department == department && g.isActive
    if !(validGroups.length == gs.length) then some .invalidGroups
    else if user.roleName == "Teacher" &&
        !((validGroups.filter fun g => g.teacher == user.id).length
            == validGroups.length) then
      some .notTeachersGroup
    else none

/-- The prerequisite validation block of `PUT /api/modules/:id`
(lines 571-598).  The source query (lines 573-578) writes the `_id` key
twice in one object literal, so the `$in` constraint is discarded and
only `department`, `isActive: true` and `_id: {$ne: id}` remain — the
filter below reproduces that.  The cycle check runs on
`[...updateData.prerequisites, id]`. -/
def updatePrereqCheck (dbModules : List ModuleRec) (department : String)
    (id : String) (prerequisites : Option (List String)) :
    Option UpdateModuleResult :=
  match prerequisites with
  | none => none
  | some ps =>
    let validPrereqs := dbModules.filter fun m =>
      m.department == department && m.isActive && !(m.id == id)
    if !(validPrereqs.length == ps.length) then some .invalidPrereqs
    else if checkCircularDependency dbModules department (ps ++ [id]) then
      some .circularDependency
    else none

/-- `PUT /api/modules/:id` (lines 488-621). -/
def updateModule (dbGroups : List GroupRec) (dbModules : List ModuleRec)
    (user : UserRec) (id : String) (b : UpdateModuleBody) :
    UpdateModuleResult × List ModuleRec :=
  if !(isMongoId id && validUpdateModuleBody b) then (.validationFailed, dbModules)
  else
    match findModuleForManage dbModules user id with
    | none => (.notFound, dbModules)
    | some module0 =>
      match updateGroupCheck dbGroups user module0.department b.groups with
      | some r => (r, dbModules)
      | none =>
        match updatePrereqCheck dbModules module0.department id b.prerequisites with
        | some r => (r, dbModules)
        | none =>
          let updated := applyModuleUpdate b module0
          (.updated updated,
            dbModules.map fun m => if m.id == id then updated else m)

/-! ### `DELETE /api/modules/:id` (lines 624-696) -/

inductive DeleteModuleResult
  | validationFailed
  | notFound
  | usedInAssessments
  | prereqOfOthers
  | deleted
deriving DecidableEq

/-- The HTTP status each outcome of `DELETE /api/modules/:id` is sent
with. -/
def deleteModuleStatus : DeleteModuleResult → Nat
  | .deleted => 200
  | .notFound => 404
  | _ => 400

/-- `DELETE /api/modules/:id` (lines 624-696): role-based lookup, the two
reference checks, then the soft delete `module.isActive = false`. -/
def deleteModule (dbModules : List ModuleRec) (dbAssessments : List AssessmentRec)
    (user : UserRec) (id : String) : DeleteModuleResult × List ModuleRec :=
  if !(isMongoId id) then (.validationFailed, dbModules)
  else
    match findModuleForManage dbModules user id with
    | none => (.notFound, dbModules)
    | some module0 =>
      if (dbAssessments.filter fun a => a.modules.contains id && a.isActive).length > 0 then
        (.usedInAssessments, dbModules)
      else if (dbModules.filter fun m => m.prerequisites.contains id && m.isActive).length
          > 0 then
        (.prereqOfOthers, dbModules)
      else
        (.deleted,
          dbModules.map fun m =>
            if m.id == module0.id then { module0 with isActive := false } else m)

/-! ### `POST /api/modules/:id/questions` (lines 699-792) -/

inductive AddQuestionsResult
  | validationFailed
  | notFound
  | invalidQuestions
  | wrongDepartmentQuestions
  | allAlreadyPresent
  | added (n : Nat)
deriving DecidableEq

/-- `POST /api/modules/:id/questions` (lines 699-792): validation,
role-based lookup, question validation, the department check, then the
push of the not-yet-present questions. -/
def addQuestionsToModule (dbModules : List ModuleRec) (dbQuestions : List QuestionRec)
    (user : UserRec) (id : String) (questionIds : List String) :
    AddQuestionsResult × List ModuleRec :=
  if !(isMongoId id && questionIds.all isMongoId) then (.validationFailed, dbModules)
  else
    match findModuleForManage dbModules user id with
    | none => (.notFound, dbModules)
    | some module0 =>
      let questions := dbQuestions.filter fun q => questionIds.contains q.id && q.isActive
      if !(questions.length == questionIds.length) then (.invalidQuestions, dbModules)
      else
        let invalidQs := questions.filter fun q =>
          q.department.isNone || !(q.department == some module0.department)
        if invalidQs.length > 0 then (.wrongDepartmentQuestions, dbModules)
        else
          let questionsToAdd := questionIds.filter fun qid =>
            !(module0.questions.contains qid)
          if questionsToAdd.length == 0 then (.allAlreadyPresent, dbModules)
          else
            let updated := { module0 with questions := module0.questions ++ questionsToAdd }
            (.added questionsToAdd.length,
              dbModules.map fun m => if m.id == module0.id then updated else m)

/-! ## C6: notice targeting validation -/

/-- C6: Creating a notice requires `targetType` to be one of
`all`/`department`/`group`/`role`, and the request is rejected with
HTTP 400 — no notice is persisted — when `targetType` is `department` with
no department, `group` with an empty groups list, or `role` with an empty
`targetRoles` list. -/
theorem C6_createNotice_target_validation (dbD : List DepartmentRec)
    (dbG : List GroupRec) (user : UserRec) (now : Int) (newId : String)
    (b : CreateNoticeBody) :
    (b.targetType ∉ (["all", "department", "group", "role"] : List String) →
      createNotice dbD dbG user now newId b = .validationFailed ∧
      createNoticeStatus (createNotice dbD dbG user now newId b) = 400) ∧
    (b.targetType = "department" → b.department = none →
      createNoticeStatus (createNotice dbD dbG user now newId b) = 400 ∧
      isCreatedNotice (createNotice dbD dbG user now newId b) = false) ∧
    (b.targetType = "group" → b.groups = [] →
      createNoticeStatus (createNotice dbD dbG user now newId b) = 400 ∧
      isCreatedNotice (createNotice dbD dbG user now newId b) = false) ∧
    (b.targetType = "role" → b.targetRoles = [] →
      createNoticeStatus (createNotice dbD dbG user now newId b) = 400 ∧
      isCreatedNotice (createNotice dbD dbG user now newId b) = false) := by
  by_cases hv : validNoticeBody now b
  · have hmem : b.targetType ∈ (["all", "department", "group", "role"] : List String) := by
      simp only [validNoticeBody, Bool.and_eq_true] at hv
      have := hv.1.1.1.1.1.2
      simpa [List.elem_iff] using this
    refine ⟨fun hno => absurd hmem hno, ?_, ?_, ?_⟩
    · intro htt hdept
      have hres : createNotice dbD dbG user now newId b = .departmentRequired := by
        simp [createNotice, hv, htt, hdept]
      rw [hres]
      exact ⟨rfl, rfl⟩
    · intro htt hgr
      have hres : createNotice dbD dbG user now newId b = .groupRequired := by
        simp [createNotice, hv, htt, hgr]
      rw [hres]
      exact ⟨rfl, rfl⟩
    · intro htt hroles
      have hres : createNotice dbD dbG user now newId b = .roleRequired := by
        simp [createNotice, hv, htt, hroles]
      rw [hres]
      exact ⟨rfl, rfl⟩
  · have hres : createNotice dbD dbG user now newId b = .validationFailed := by
      simp [createNotice, hv]
    rw [hres]
    exact ⟨fun _ => ⟨rfl, rfl⟩, fun _ _ => ⟨rfl, rfl⟩, fun _ _ => ⟨rfl, rfl⟩,
      fun _ _ => ⟨rfl, rfl⟩⟩

/-- Witness for C6: a group-targeted notice with an empty `groups` list is
rejected with 400 and nothing is created. -/
theorem C6_createNotice_target_validation_witness :
    createNoticeStatus (createNotice [] [] ⟨"u1", "Admin", "d1", []⟩ 0 "n1"
      ⟨"t", "c", "group", [], none, [], none, none⟩) = 400 ∧
    isCreatedNotice (createNotice [] [] ⟨"u1", "Admin", "d1", []⟩ 0 "n1"
      ⟨"t", "c", "group", [], none, [], none, none⟩) = false :=
  (C6_createNotice_target_validation [] [] ⟨"u1", "Admin", "d1", []⟩ 0 "n1"
    ⟨"t", "c", "group", [], none, [], none, none⟩).2.2.1 rfl rfl

/-! ## C7: the unread filter of the notices listing -/

/-- C7: for an Admin, HOD, or Teacher requesting `GET /api/notices` with
`unread=true`, no returned notice has a `readBy` entry for that user. -/
theorem C7_listNotices_unread (db : List NoticeRec) (u : UserRec)
    (p : NoticeListParams) (now : Int) (n : NoticeRec)
    (hrole : u.roleName = "Admin" ∨ u.roleName = "HOD" ∨ u.roleName = "Teacher")
    (hunread : p.unread = some "true")
    (hn : n ∈ listNoticesStaff db u p now) :
    n.readBy.all (fun e => !(e.user == u.id)) = true := by
  simp only [listNoticesStaff, hunread] at hn
  rw [if_pos (by rfl)] at hn
  have hpred := (List.mem_filter.mp hn).2
  simp only [Bool.not_eq_true', List.any_eq_false] at hpred
  rw [List.all_eq_true]
  intro e he
  simpa using hpred e he

/-- Witness for C7: an admin lists unread notices; the returned notice was
read only by a different user. -/
theorem C7_listNotices_unread_witness :
    (⟨"n1", "t", "c", "u9", "all", [], none, [], "medium", none, true,
        [⟨"u2", 5⟩], 0⟩ : NoticeRec) ∈
      listNoticesStaff
        [⟨"n1", "t", "c", "u9", "all", [], none, [], "medium", none, true, [⟨"u2", 5⟩], 0⟩]
        ⟨"u1", "Admin", "d1", []⟩
        ⟨1, 10, none, none, none, none, none, some "true", none, none⟩ 0 ∧
    (⟨"n1", "t", "c", "u9", "all", [], none, [], "medium", none, true,
        [⟨"u2", 5⟩], 0⟩ : NoticeRec).readBy.all
      (fun e => !(e.user == (⟨"u1", "Admin", "d1", []⟩ : UserRec).id)) = true :=
  ⟨by decide, C7_listNotices_unread
    [⟨"n1", "t", "c", "u9", "all", [], none, [], "medium", none, true, [⟨"u2", 5⟩], 0⟩]
    ⟨"u1", "Admin", "d1", []⟩
    ⟨1, 10, none, none, none, none, none, some "true", none, none⟩ 0
    ⟨"n1", "t", "c", "u9", "all", [], none, [], "medium", none, true, [⟨"u2", 5⟩], 0⟩
    (Or.inl rfl) rfl (by decide)⟩

/-! ## C2 and C3: role-based scoping of the module endpoints -/

theorem mem_listModules_matches (db : List ModuleRec) (u : UserRec)
    (p : ModListParams) (m : ModuleRec) (hm : m ∈ listModules db u p) :
    m ∈ db ∧ matchesModQuery (buildModQuery u p) m = true := by
  unfold listModules at hm
  have h1 := List.mem_of_mem_drop (List.mem_of_mem_take hm)
  have h2 := (List.perm_insertionSort moduleOrder _).mem_iff.mp h1
  exact ⟨(List.mem_filter.mp h2).1, (List.mem_filter.mp h2).2⟩

theorem modRoleQuery_isActive (u : UserRec) (q : ModQuery) :
    (modRoleQuery u q).isActive = q.isActive := by
  unfold modRoleQuery
  split_ifs <;> rfl

theorem modGroupOverride_isActive (u : UserRec) (p : ModListParams) (q : ModQuery) :
    (modGroupOverride u p q).isActive = q.isActive := by
  unfold modGroupOverride
  cases p.group
  · rfl
  · split_ifs <;> rfl

theorem modGroupOverride_department (u : UserRec) (p : ModListParams) (q : ModQuery) :
    (modGroupOverride u p q).department = q.department := by
  unfold modGroupOverride
  cases p.group
  · rfl
  · split_ifs <;> rfl

theorem modRoleQuery_hod (u : UserRec) (q : ModQuery) (hu : u.roleName = "HOD") :
    modRoleQuery u q = { q with department := some u.department } := by
  simp [modRoleQuery, hu]

theorem modRoleQuery_student (u : UserRec) (q : ModQuery)
    (hu : u.roleName = "Student") :
    modRoleQuery u q = { q with groupsCond := some (.inList u.groups) } := by
  simp [modRoleQuery, hu]

theorem modGroupOverride_not_staff (u : UserRec) (p : ModListParams) (q : ModQuery)
    (h : (["Admin", "HOD", "Teacher"] : List String).contains u.roleName = false) :
    modGroupOverride u p q = q := by
  cases hpg : p.group
  · simp [modGroupOverride, hpg]
  · simp only [modGroupOverride, hpg]
    rw [if_neg (fun hc => Bool.false_ne_true (h ▸ hc))]

theorem matchesModQuery_department (q : ModQuery) (m : ModuleRec) (d : String)
    (hq : q.department = some d) (hm : matchesModQuery q m = true) :
    m.department = d := by
  simp only [matchesModQuery, Bool.and_eq_true] at hm
  have hc := hm.1.1.1.1.1.2
  rw [hq] at hc
  simpa using hc

theorem matchesModQuery_isActive (q : ModQuery) (m : ModuleRec)
    (hq : q.isActive = true) (hm : matchesModQuery q m = true) :
    m.isActive = true := by
  simp only [matchesModQuery, Bool.and_eq_true] at hm
  have hc := hm.1.1.1.1.1.1.1
  rw [hq] at hc
  simpa using hc

theorem matchesModQuery_groupsIn (q : ModQuery) (m : ModuleRec) (gids : List String)
    (hq : q.groupsCond = some (.inList gids)) (hm : matchesModQuery q m = true) :
    m.groups.any (fun g => gids.contains g) = true := by
  simp only [matchesModQuery, Bool.and_eq_true] at hm
  have hc := hm.2
  rw [hq] at hc
  exact hc

/-- C2: for an HOD user, `GET /api/modules` only lists modules of the
HOD's department, `GET /api/modules/:id` only matches a module of the
HOD's department (404 otherwise), and `POST /api/modules` targeting an
existing active department other than the HOD's own answers 403. -/
theorem C2_hod_department_scope (db : List ModuleRec) (u : UserRec)
    (hu : u.roleName = "HOD") :
    (∀ (p : ModListParams) (m : ModuleRec), m ∈ listModules db u p →
      m.department = u.department) ∧
    (∀ (id : String) (m : ModuleRec), getModuleById db u id = some m →
      m.department = u.department) ∧
    (∀ (dbD : List DepartmentRec) (dbG : List GroupRec) (newId : String) (now : Int)
        (b : CreateModuleBody) (dd : DepartmentRec),
      validCreateModuleBody b = true →
      dbD.find? (fun x => x.id == b.department) = some dd →
      dd.isActive = true → ¬ dd.id = u.department →
      createModule dbD dbG db u newId now b = .wrongDepartment ∧
      createModuleStatus (createModule dbD dbG db u newId now b) = 403) := by
  refine ⟨?_, ?_, ?_⟩
  · intro p m hm
    have hq : (buildModQuery u p).department = some u.department := by
      unfold buildModQuery
      rw [modGroupOverride_department, modRoleQuery_hod u _ hu]
    exact matchesModQuery_department _ _ _ hq (mem_listModules_matches db u p m hm).2
  · intro id m hm
    rw [getModuleById, if_neg (show ¬((u.roleName == "Admin") = true) by simp [hu]),
      if_pos (show (u.roleName == "HOD") = true by simp [hu])] at hm
    have hp := List.find?_some hm
    simp only [Bool.and_eq_true, beq_iff_eq] at hp
    exact hp.2
  · intro dbD dbG newId now b dd hval hfind hact hne
    have hbeq : (dd.id == u.department) = false := beq_eq_false_iff_ne.mpr hne
    have hres : createModule dbD dbG db u newId now b = .wrongDepartment := by
      simp [createModule, hval, hfind, hact, hu, hbeq]
    rw [hres]
    exact ⟨rfl, rfl⟩

/-- Witness for C2: an HOD of department `d1` listing modules sees only
`d1` modules, and creating into active department `d2` is answered 403. -/
theorem C2_hod_department_scope_witness :
    ((⟨"m1", "t", none, "d1", [], "u9", "beginner", none, [], [], [], [], 0, true, 0⟩ :
        ModuleRec).department = (⟨"u1", "HOD", "d1", []⟩ : UserRec).department) ∧
    createModuleStatus
      (createModule [⟨"d2aaaaaaaaaaaaaaaaaaaaaa", true⟩] [] []
        ⟨"u1", "HOD", "d1", []⟩ "m9" 0
        ⟨"T", none, "d2aaaaaaaaaaaaaaaaaaaaaa", [], none, none, [], [], none⟩) = 403 := by
  constructor
  · exact (C2_hod_department_scope
      [⟨"m1", "t", none, "d1", [], "u9", "beginner", none, [], [], [], [], 0, true, 0⟩]
      ⟨"u1", "HOD", "d1", []⟩ rfl).2.1 "m1"
      ⟨"m1", "t", none, "d1", [], "u9", "beginner", none, [], [], [], [], 0, true, 0⟩
      (by decide)
  · exact ((C2_hod_department_scope [] ⟨"u1", "HOD", "d1", []⟩ rfl).2.2
      [⟨"d2aaaaaaaaaaaaaaaaaaaaaa", true⟩] [] "m9" 0
      ⟨"T", none, "d2aaaaaaaaaaaaaaaaaaaaaa", [], none, none, [], [], none⟩
      ⟨"d2aaaaaaaaaaaaaaaaaaaaaa", true⟩ (by decide) (by decide) rfl
      (by decide)).2

/-- C3: every module a Student receives from `GET /api/modules` is
assigned to at least one of the student's groups, and with the `isActive`
query parameter absent only active modules are returned. -/
theorem C3_student_listing (db : List ModuleRec) (u : UserRec) (p : ModListParams)
    (m : ModuleRec) (hu : u.roleName = "Student") (hm : m ∈ listModules db u p) :
    m.groups.any (fun g => u.groups.contains g) = true ∧
    (p.isActive = none → m.isActive = true) := by
  have hmatch := (mem_listModules_matches db u p m hm).2
  have hstaff : (["Admin", "HOD", "Teacher"] : List String).contains u.roleName = false := by
    rw [hu]; decide
  constructor
  · have hq : (buildModQuery u p).groupsCond = some (.inList u.groups) := by
      unfold buildModQuery
      rw [modGroupOverride_not_staff u p _ hstaff, modRoleQuery_student u _ hu]
    exact matchesModQuery_groupsIn _ _ _ hq hmatch
  · intro hpa
    have hq : (buildModQuery u p).isActive = true := by
      unfold buildModQuery
      rw [modGroupOverride_isActive, modRoleQuery_isActive]
      simp [modParamsQuery, hpa]
    exact matchesModQuery_isActive _ _ hq hmatch

/-- Witness for C3: a student in group `g1` receives the module assigned
to `g1`, which is assigned to one of their groups and active. -/
theorem C3_student_listing_witness :
    ((⟨"m1", "t", none, "d1", ["g1"], "u9", "beginner", none, [], [], [], [], 0, true, 0⟩ :
        ModuleRec).groups.any
      (fun g => (⟨"u1", "Student", "d1", ["g1"]⟩ : UserRec).groups.contains g) = true) ∧
    ((⟨1, 10, none, none, none, none, none, none, none, none⟩ :
        ModListParams).isActive = none →
      (⟨"m1", "t", none, "d1", ["g1"], "u9", "beginner", none, [], [], [], [], 0, true, 0⟩ :
        ModuleRec).isActive = true) :=
  C3_student_listing
    [⟨"m1", "t", none, "d1", ["g1"], "u9", "beginner", none, [], [], [], [], 0, true, 0⟩]
    ⟨"u1", "Student", "d1", ["g1"]⟩
    ⟨1, 10, none, none, none, none, none, none, none, none⟩
    ⟨"m1", "t", none, "d1", ["g1"], "u9", "beginner", none, [], [], [], [], 0, true, 0⟩
    rfl (by decide)

/-! ## C8: soft delete of a module -/

theorem filter_length_pos_iff {α : Type} (l : List α) (p : α → Bool) :
    0 < (l.filter p).length ↔ ∃ x ∈ l, p x = true := by
  constructor
  · intro h
    obtain ⟨x, hx⟩ := List.exists_mem_of_length_pos h
    exact ⟨x, (List.mem_filter.mp hx).1, (List.mem_filter.mp hx).2⟩
  · rintro ⟨x, hl, hp⟩
    exact List.length_pos.mpr (List.ne_nil_of_mem (List.mem_filter.mpr ⟨hl, hp⟩))

theorem findModuleForManage_spec (db : List ModuleRec) (u : UserRec) (id : String)
    (m0 : ModuleRec) (h : findModuleForManage db u id = some m0) :
    m0 ∈ db ∧ m0.id = id := by
  unfold findModuleForManage at h
  split_ifs at h
  · exact ⟨List.mem_of_find?_eq_some h, by simpa using List.find?_some h⟩
  · have hp := List.find?_some h
    simp only [Bool.and_eq_true, beq_iff_eq] at hp
    exact ⟨List.mem_of_find?_eq_some h, hp.1⟩
  · have hp := List.find?_some h
    simp only [Bool.and_eq_true, beq_iff_eq] at hp
    exact ⟨List.mem_of_find?_eq_some h, hp.1⟩

/-- C8 (counterexample to the claim as stated): the PUT handler's broken
prerequisite validation (the `$in` constraint lost to the duplicate `_id`
key) lets an update persist a self-referencing prerequisite: updating
module `b` with `prerequisites = [b]` passes, because only the count of
*other* active department modules (here the single module `a`) is
compared against the list length, and the cycle check walks `b`'s stored
(old, empty) prerequisites.  In the resulting state no *other* active
module references `b` and no assessment exists, yet deleting `b` answers
400 and leaves the collection unchanged instead of the claimed soft
delete. -/
theorem C8_deleteModule_counterexample :
    (updateModule []
      [⟨"aaaaaaaaaaaaaaaaaaaaaaaa", "t", none, "dddddddddddddddddddddddd", [], "u9",
         "beginner", none, [], [], [], [], 0, true, 0⟩,
       ⟨"bbbbbbbbbbbbbbbbbbbbbbbb", "t", none, "dddddddddddddddddddddddd", [], "u9",
         "beginner", none, [], [], [], [], 0, true, 0⟩]
      ⟨"u1", "Admin", "d1", []⟩ "bbbbbbbbbbbbbbbbbbbbbbbb"
      ⟨none, none, none, none, none, none, some ["bbbbbbbbbbbbbbbbbbbbbbbb"], none⟩).1 =
      UpdateModuleResult.updated
        ⟨"bbbbbbbbbbbbbbbbbbbbbbbb", "t", none, "dddddddddddddddddddddddd", [], "u9",
          "beginner", none, [], ["bbbbbbbbbbbbbbbbbbbbbbbb"], [], [], 0, true, 0⟩ ∧
    (updateModule []
      [⟨"aaaaaaaaaaaaaaaaaaaaaaaa", "t", none, "dddddddddddddddddddddddd", [], "u9",
         "beginner", none, [], [], [], [], 0, true, 0⟩,
       ⟨"bbbbbbbbbbbbbbbbbbbbbbbb", "t", none, "dddddddddddddddddddddddd", [], "u9",
         "beginner", none, [], [], [], [], 0, true, 0⟩]
      ⟨"u1", "Admin", "d1", []⟩ "bbbbbbbbbbbbbbbbbbbbbbbb"
      ⟨none, none, none, none, none, none, some ["bbbbbbbbbbbbbbbbbbbbbbbb"], none⟩).2 =
      [⟨"aaaaaaaaaaaaaaaaaaaaaaaa", "t", none, "dddddddddddddddddddddddd", [], "u9",
         "beginner", none, [], [], [], [], 0, true, 0⟩,
       ⟨"bbbbbbbbbbbbbbbbbbbbbbbb", "t", none, "dddddddddddddddddddddddd", [], "u9",
         "beginner", none, [], ["bbbbbbbbbbbbbbbbbbbbbbbb"], [], [], 0, true, 0⟩] ∧
    (deleteModule
      [⟨"aaaaaaaaaaaaaaaaaaaaaaaa", "t", none, "dddddddddddddddddddddddd", [], "u9",
         "beginner", none, [], [], [], [], 0, true, 0⟩,
       ⟨"bbbbbbbbbbbbbbbbbbbbbbbb", "t", none, "dddddddddddddddddddddddd", [], "u9",
         "beginner", none, [], ["bbbbbbbbbbbbbbbbbbbbbbbb"], [], [], 0, true, 0⟩]
      [] ⟨"u1", "Admin", "d1", []⟩ "bbbbbbbbbbbbbbbbbbbbbbbb").1 =
      DeleteModuleResult.prereqOfOthers ∧
    deleteModuleStatus
      (deleteModule
        [⟨"aaaaaaaaaaaaaaaaaaaaaaaa", "t", none, "dddddddddddddddddddddddd", [], "u9",
           "beginner", none, [], [], [], [], 0, true, 0⟩,
         ⟨"bbbbbbbbbbbbbbbbbbbbbbbb", "t", none, "dddddddddddddddddddddddd", [], "u9",
           "beginner", none, [], ["bbbbbbbbbbbbbbbbbbbbbbbb"], [], [], 0, true, 0⟩]
        [] ⟨"u1", "Admin", "d1", []⟩ "bbbbbbbbbbbbbbbbbbbbbbbb").1 = 400 ∧
    (deleteModule
      [⟨"aaaaaaaaaaaaaaaaaaaaaaaa", "t", none, "dddddddddddddddddddddddd", [], "u9",
         "beginner", none, [], [], [], [], 0, true, 0⟩,
       ⟨"bbbbbbbbbbbbbbbbbbbbbbbb", "t", none, "dddddddddddddddddddddddd", [], "u9",
         "beginner", none, [], ["bbbbbbbbbbbbbbbbbbbbbbbb"], [], [], 0, true, 0⟩]
      [] ⟨"u1", "Admin", "d1", []⟩ "bbbbbbbbbbbbbbbbbbbbbbbb").2 =
      [⟨"aaaaaaaaaaaaaaaaaaaaaaaa", "t", none, "dddddddddddddddddddddddd", [], "u9",
         "beginner", none, [], [], [], [], 0, true, 0⟩,
       ⟨"bbbbbbbbbbbbbbbbbbbbbbbb", "t", none, "dddddddddddddddddddddddd", [], "u9",
         "beginner", none, [], ["bbbbbbbbbbbbbbbbbbbbbbbb"], [], [], 0, true, 0⟩] ∧
    (([⟨"aaaaaaaaaaaaaaaaaaaaaaaa", "t", none, "dddddddddddddddddddddddd", [], "u9",
         "beginner", none, [], [], [], [], 0, true, 0⟩,
       ⟨"bbbbbbbbbbbbbbbbbbbbbbbb", "t", none, "dddddddddddddddddddddddd", [], "u9",
         "beginner", none, [], ["bbbbbbbbbbbbbbbbbbbbbbbb"], [], [], 0, true, 0⟩] :
        List ModuleRec).filter fun m =>
          !(m.id == "bbbbbbbbbbbbbbbbbbbbbbbb") &&
            m.prerequisites.contains "bbbbbbbbbbbbbbbbbbbbbbbb" && m.isActive).length
      = 0 := by
  decide

/-- C8 (amended): deletion is rejected with 400, leaving the collection
unchanged and the module active, exactly when the module is referenced by
an active assessment or is a prerequisite of any active module —
possibly itself, a state the PUT handler's broken prerequisite validation
can persist; otherwise it only flips the module's `isActive` flag to
`false`. -/
theorem C8_deleteModule_soft_amended (dbM : List ModuleRec)
    (dbA : List AssessmentRec) (u : UserRec) (id : String) (m0 : ModuleRec)
    (hid : isMongoId id = true)
    (hfound : findModuleForManage dbM u id = some m0)
    (hactive : m0.isActive = true) :
    (((∃ a ∈ dbA, id ∈ a.modules ∧ a.isActive = true) ∨
      (∃ m ∈ dbM, id ∈ m.prerequisites ∧ m.isActive = true)) →
      deleteModuleStatus (deleteModule dbM dbA u id).1 = 400 ∧
      (deleteModule dbM dbA u id).2 = dbM ∧
      m0 ∈ (deleteModule dbM dbA u id).2 ∧ m0.isActive = true) ∧
    (¬ ((∃ a ∈ dbA, id ∈ a.modules ∧ a.isActive = true) ∨
        (∃ m ∈ dbM, id ∈ m.prerequisites ∧ m.isActive = true)) →
      (deleteModule dbM dbA u id).1 = .deleted ∧
      (deleteModule dbM dbA u id).2 =
        dbM.map (fun m => if m.id == m0.id then { m0 with isActive := false } else m)) := by
  have hm0 := findModuleForManage_spec dbM u id m0 hfound
  have hdel : deleteModule dbM dbA u id =
      (if (dbA.filter fun a => a.modules.contains id && a.isActive).length > 0 then
        (.usedInAssessments, dbM)
      else if (dbM.filter fun m => m.prerequisites.contains id && m.isActive).length > 0 then
        (.prereqOfOthers, dbM)
      else
        (.deleted,
          dbM.map fun m =>
            if m.id == m0.id then { m0 with isActive := false } else m)) := by
    simp only [deleteModule, hid, Bool.not_true, Bool.false_eq_true, if_false, hfound]
  have hAiff : 0 < (dbA.filter fun a => a.modules.contains id && a.isActive).length ↔
      ∃ a ∈ dbA, id ∈ a.modules ∧ a.isActive = true := by
    rw [filter_length_pos_iff]
    constructor
    · rintro ⟨a, hina, hpa⟩
      simp only [Bool.and_eq_true] at hpa
      exact ⟨a, hina, List.elem_iff.mp hpa.1, hpa.2⟩
    · rintro ⟨a, hina, hmem, hact⟩
      exact ⟨a, hina, by simp [List.elem_iff, hmem, hact]⟩
  have hPiff : 0 < (dbM.filter fun m => m.prerequisites.contains id && m.isActive).length ↔
      ∃ m ∈ dbM, id ∈ m.prerequisites ∧ m.isActive = true := by
    rw [filter_length_pos_iff]
    constructor
    · rintro ⟨m, hinm, hpm⟩
      simp only [Bool.and_eq_true] at hpm
      exact ⟨m, hinm, List.elem_iff.mp hpm.1, hpm.2⟩
    · rintro ⟨m, hinm, hmem, hact⟩
      exact ⟨m, hinm, by simp [List.elem_iff, hmem, hact]⟩
  constructor
  · intro hcond
    by_cases hca : 0 < (dbA.filter fun a => a.modules.contains id && a.isActive).length
    · rw [hdel, if_pos hca]
      exact ⟨rfl, rfl, hm0.1, hactive⟩
    · have hcp : 0 < (dbM.filter fun m => m.prerequisites.contains id && m.isActive).length := by
        rcases hcond with h | h
        · exact absurd (hAiff.mpr h) hca
        · exact hPiff.mpr h
      rw [hdel, if_neg hca, if_pos hcp]
      exact ⟨rfl, rfl, hm0.1, hactive⟩
  · intro hncond
    have hna : ¬ 0 < (dbA.filter fun a => a.modules.contains id && a.isActive).length :=
      fun hc => hncond (Or.inl (hAiff.mp hc))
    have hnp : ¬ 0 < (dbM.filter fun m => m.prerequisites.contains id && m.isActive).length :=
      fun hc => hncond (Or.inr (hPiff.mp hc))
    rw [hdel, if_neg hna, if_neg hnp]
    exact ⟨rfl, rfl⟩

/-- Witness for C8 (amended): an admin deletes an unreferenced module;
the result is the soft delete. -/
theorem C8_deleteModule_soft_amended_witness :
    (deleteModule
      [⟨"aaaaaaaaaaaaaaaaaaaaaaaa", "t", none, "d1", [], "u9", "beginner", none, [], [],
        [], [], 0, true, 0⟩] [] ⟨"u1", "Admin", "d1", []⟩ "aaaaaaaaaaaaaaaaaaaaaaaa").1 =
      DeleteModuleResult.deleted :=
  ((C8_deleteModule_soft_amended
    [⟨"aaaaaaaaaaaaaaaaaaaaaaaa", "t", none, "d1", [], "u9", "beginner", none, [], [],
      [], [], 0, true, 0⟩] [] ⟨"u1", "Admin", "d1", []⟩ "aaaaaaaaaaaaaaaaaaaaaaaa"
    ⟨"aaaaaaaaaaaaaaaaaaaaaaaa", "t", none, "d1", [], "u9", "beginner", none, [], [],
      [], [], 0, true, 0⟩ (by decide) (by decide) rfl).2 (by decide)).1

/-! ## C10: adding questions preserves the no-duplicates invariant -/

theorem nodup_of_nodup_subset_length {α : Type} [DecidableEq α] (l₁ l₂ : List α)
    (h1 : l₁.Nodup) (hsub : l₁ ⊆ l₂) (hlen : l₂.length ≤ l₁.length) : l₂.Nodup := by
  have hc1 : l₁.toFinset.card = l₁.length := List.toFinset_card_of_nodup h1
  have hsubf : l₁.toFinset ⊆ l₂.toFinset := by
    intro x hx
    exact List.mem_toFinset.mpr (hsub (List.mem_toFinset.mp hx))
  have hc2 := List.card_toFinset l₂
  have hds := (List.dedup_sublist l₂).length_le
  have hle := Finset.card_le_card hsubf
  have hd : l₂.dedup.length = l₂.length := by omega
  rw [← List.dedup_eq_self]
  exact (List.dedup_sublist l₂).eq_of_length hd

/-- The case split of `addQuestionsToModule`: either the collection is
returned unchanged, or the found module was extended by the
not-yet-present valid question ids. -/
theorem addQuestions_db_cases (dbM : List ModuleRec) (dbQ : List QuestionRec)
    (u : UserRec) (id : String) (qids : List String) :
    (addQuestionsToModule dbM dbQ u id qids).2 = dbM ∨
    ∃ m0, findModuleForManage dbM u id = some m0 ∧
      (dbQ.filter fun q => qids.contains q.id && q.isActive).length = qids.length ∧
      (addQuestionsToModule dbM dbQ u id qids).2 =
        dbM.map (fun m => if m.id == m0.id then
          { m0 with questions := m0.questions ++
              qids.filter (fun qid => !(m0.questions.contains qid)) } else m) := by
  unfold addQuestionsToModule
  split
  · exact Or.inl rfl
  · split
    · exact Or.inl rfl
    · next m0 hfind =>
      dsimp only
      split
      · exact Or.inl rfl
      · next hlen =>
        split
        · exact Or.inl rfl
        · split
          · exact Or.inl rfl
          · refine Or.inr ⟨m0, hfind, ?_, rfl⟩
            simp only [Bool.not_eq_true', beq_eq_false_iff_ne, ne_eq, Decidable.not_not]
              at hlen
            simpa using hlen

/-- C10: if no module of the collection has duplicate question ids and
the stored question ids are unique, then after
`POST /api/modules/:id/questions` no module has duplicate question ids
(the handler filters out already-present ids, and duplicated request ids
fail the validity length check). -/
theorem C10_addQuestions_nodup (dbM : List ModuleRec) (dbQ : List QuestionRec)
    (u : UserRec) (id : String) (qids : List String)
    (hq : (dbQ.map (fun q => q.id)).Nodup)
    (hm : ∀ m ∈ dbM, m.questions.Nodup) :
    ∀ m ∈ (addQuestionsToModule dbM dbQ u id qids).2, m.questions.Nodup := by
  rcases addQuestions_db_cases dbM dbQ u id qids with hsame | ⟨m0, hfind, hlen, hdb⟩
  · rw [hsame]; exact hm
  · rw [hdb]
    intro m hmem
    obtain ⟨x, hx, rfl⟩ := List.mem_map.mp hmem
    by_cases hxid : (x.id == m0.id) = true
    · rw [if_pos hxid]
      have hm0 : m0.questions.Nodup :=
        hm m0 (findModuleForManage_spec dbM u id m0 hfind).1
      have hqids : qids.Nodup := by
        set qs := dbQ.filter fun q => qids.contains q.id && q.isActive with hqs
        have hqsub : qs.map (fun q => q.id) ⊆ qids := by
          intro y hy
          obtain ⟨q, hqmem, rfl⟩ := List.mem_map.mp hy
          have := (List.mem_filter.mp hqmem).2
          simp only [Bool.and_eq_true] at this
          exact List.elem_iff.mp this.1
        have hqnodup : (qs.map (fun q => q.id)).Nodup :=
          hq.sublist (List.Sublist.map _ (List.filter_sublist dbQ))
        refine nodup_of_nodup_subset_length _ _ hqnodup hqsub ?_
        rw [List.length_map]
        omega
      have htoadd : (qids.filter (fun qid => !(m0.questions.contains qid))).Nodup :=
        hqids.filter _
      have hdisj : m0.questions.Disjoint
          (qids.filter (fun qid => !(m0.questions.contains qid))) := by
        intro a ha hin
        have hcf := (List.mem_filter.mp hin).2
        simp only [Bool.not_eq_true'] at hcf
        have hcf2 : m0.questions.elem a = false := hcf
        rw [List.elem_iff.mpr ha] at hcf2
        exact Bool.noConfusion hcf2
      exact List.Nodup.append hm0 htoadd hdisj
    · rw [if_neg hxid]
      exact hm x hx

/-- Witness for C10: adding one fresh question keeps the question list
duplicate-free. -/
theorem C10_addQuestions_nodup_witness :
    (⟨"aaaaaaaaaaaaaaaaaaaaaaaa", "t", none, "d1", [], "u9", "beginner", none, [],
      [], ["bbbbbbbbbbbbbbbbbbbbbbbb", "cccccccccccccccccccccccc"], [], 0, true, 0⟩ :
        ModuleRec).questions.Nodup :=
  C10_addQuestions_nodup
    [⟨"aaaaaaaaaaaaaaaaaaaaaaaa", "t", none, "d1", [], "u9", "beginner", none, [],
      [], ["bbbbbbbbbbbbbbbbbbbbbbbb"], [], 0, true, 0⟩]
    [⟨"cccccccccccccccccccccccc", some "d1", true⟩]
    ⟨"u1", "Admin", "d1", []⟩ "aaaaaaaaaaaaaaaaaaaaaaaa" ["cccccccccccccccccccccccc"]
    (by decide) (by decide)
    ⟨"aaaaaaaaaaaaaaaaaaaaaaaa", "t", none, "d1", [], "u9", "beginner", none, [],
      [], ["bbbbbbbbbbbbbbbbbbbbbbbb", "cccccccccccccccccccccccc"], [], 0, true, 0⟩
    (by decide)

/-! ## C4: the median computation -/

/-- C4: For every non-empty list of numbers, `calculateMedian` returns the
statistical median: the middle element of the ascending sorted list for odd
length, and the mean of the two middle elements for even length.  `s` is
any ascending sorted rearrangement of the input. -/
theorem C4_calculateMedian_is_median (l s : List ℚ) (hne : l ≠ [])
    (hperm : l.Perm s) (hsorted : s.Sorted (· ≤ ·)) :
    calculateMedian l =
      if s.length % 2 ≠ 0 then s.getD (s.length / 2) 0
      else (s.getD (s.length / 2 - 1) 0 + s.getD (s.length / 2) 0) / 2 := by
  have hsort : List.insertionSort (· ≤ ·) l = s :=
    List.eq_of_perm_of_sorted ((List.perm_insertionSort _ l).trans hperm)
      (List.sorted_insertionSort _ l) hsorted
  unfold calculateMedian
  rw [hsort]

/-- Witness for C4 at the list `[3, 1, 2]`, whose sorted form is
`[1, 2, 3]` and whose median is `2`. -/
theorem C4_calculateMedian_is_median_witness :
    ([3, 1, 2] : List ℚ) ≠ [] ∧ List.Perm [3, 1, 2] [1, 2, 3] ∧
      List.Sorted (· ≤ ·) ([1, 2, 3] : List ℚ) ∧ calculateMedian [3, 1, 2] = 2 := by
  refine ⟨by decide, by decide, by decide, ?_⟩
  have h := C4_calculateMedian_is_median [3, 1, 2] [1, 2, 3] (by decide) (by decide) (by decide)
  simpa using h

/-! ## C5: the learning streak -/

theorem streakLoop_succ (fuel : Nat) (d : Int) (dates : List Int) :
    streakLoop (fuel + 1) d dates =
      if d ∈ dates then streakLoop fuel (d - 1) dates + 1 else 0 := by
  have hcd : dates.contains d = decide (d ∈ dates) := by
    by_cases hd : d ∈ dates
    · simp [hd, List.elem_iff.mpr hd]
    · have hc : dates.contains d = false := by
        by_cases hc2 : dates.contains d
        · exact absurd (List.elem_iff.mp hc2) hd
        · simpa using hc2
      simp [hc, hd]
  simp [streakLoop, hcd]

theorem streakLoop_mem (fuel : Nat) (d : Int) (dates : List Int) :
    ∀ j : Nat, j < streakLoop fuel d dates → (d - j) ∈ dates := by
  induction fuel generalizing d with
  | zero => intro j hj; simp [streakLoop] at hj
  | succ fuel ih =>
    intro j hj
    rw [streakLoop_succ] at hj
    by_cases hd : d ∈ dates
    · rw [if_pos hd] at hj
      match j with
      | 0 => simpa using hd
      | j + 1 =>
        have h2 := ih (d - 1) j (by omega)
        have harith : d - 1 - (j : Int) = d - ((j : Nat) + 1 : Nat) := by push_cast; ring
        rwa [harith] at h2
    · rw [if_neg hd] at hj; omega

theorem streakLoop_le (fuel : Nat) (d : Int) (dates : List Int) :
    streakLoop fuel d dates ≤ fuel := by
  induction fuel generalizing d with
  | zero => simp [streakLoop]
  | succ fuel ih =>
    rw [streakLoop_succ]
    by_cases hd : d ∈ dates
    · rw [if_pos hd]; exact Nat.succ_le_succ (ih (d - 1))
    · rw [if_neg hd]; omega

theorem streakLoop_stop (fuel : Nat) (d : Int) (dates : List Int)
    (h : streakLoop fuel d dates < fuel) :
    (d - (streakLoop fuel d dates : Nat)) ∉ dates := by
  induction fuel generalizing d with
  | zero => omega
  | succ fuel ih =>
    rw [streakLoop_succ] at h ⊢
    by_cases hd : d ∈ dates
    · rw [if_pos hd] at h ⊢
      have h2 := ih (d - 1) (by omega)
      intro hmem
      apply h2
      have harith : d - 1 - (streakLoop fuel (d - 1) dates : Nat) =
          d - ((streakLoop fuel (d - 1) dates + 1 : Nat) : Int) := by push_cast; ring
      rwa [harith]
    · rw [if_neg hd]
      simpa using hd

/-- The loop cannot use up all its fuel when the fuel exceeds the number
of dates: the days it inspects are pairwise distinct members of `dates`. -/
theorem streakLoop_lt_fuel (fuel : Nat) (d : Int) (dates : List Int)
    (h : dates.length < fuel) : streakLoop fuel d dates < fuel := by
  rcases Nat.lt_or_ge (streakLoop fuel d dates) fuel with hlt | hge
  · exact hlt
  · exfalso
    have heq : streakLoop fuel d dates = fuel :=
      le_antisymm (streakLoop_le fuel d dates) hge
    have hmem : ∀ j : Nat, j < fuel → (d - j) ∈ dates := by
      intro j hj
      exact streakLoop_mem fuel d dates j (by rw [heq]; exact hj)
    have hinj : Function.Injective (fun j : Nat => d - (j : Int)) := by
      intro a b hab
      simp only [sub_right_inj, Nat.cast_inj] at hab
      exact hab
    have hsub : (Finset.range fuel).image (fun j : Nat => d - (j : Int)) ⊆ dates.toFinset := by
      intro x hx
      simp only [Finset.mem_image, Finset.mem_range] at hx
      obtain ⟨j, hj, rfl⟩ := hx
      exact List.mem_toFinset.mpr (hmem j hj)
    have hcard : fuel ≤ dates.toFinset.card := by
      calc fuel = (Finset.range fuel).card := (Finset.card_range fuel).symm
        _ = ((Finset.range fuel).image (fun j : Nat => d - (j : Int))).card :=
            (Finset.card_image_of_injective _ hinj).symm
        _ ≤ dates.toFinset.card := Finset.card_le_card hsub
    have := List.toFinset_card_le dates
    omega

/-- C5: `calculateCurrentStreak` returns the number of consecutive
calendar days, counting backwards from today inclusive, on which at least
one activity record exists: every day in the window is covered, the day
right before the window is not, and in particular the result is `0` for an
empty list and `0` when there is no record for today. -/
theorem C5_calculateCurrentStreak_spec (today : Int) (acts : List ActivityRec) :
    (∀ j : Nat, j < calculateCurrentStreak today acts →
        (today - j) ∈ acts.map (·.day)) ∧
    (today - (calculateCurrentStreak today acts : Nat)) ∉ acts.map (·.day) ∧
    (acts = [] → calculateCurrentStreak today acts = 0) ∧
    (today ∉ acts.map (·.day) → calculateCurrentStreak today acts = 0) := by
  by_cases hlen : acts.length = 0
  · have hnil : acts = [] := List.length_eq_zero.mp hlen
    subst hnil
    refine ⟨?_, ?_, fun _ => rfl, fun _ => rfl⟩
    · intro j hj; simp [calculateCurrentStreak] at hj
    · simp [calculateCurrentStreak]
  · have hunfold : calculateCurrentStreak today acts =
        streakLoop (acts.length + 1) today
          (List.insertionSort (· ≤ ·) (acts.map (·.day))) := by
      simp [calculateCurrentStreak, hlen]
    set dates := List.insertionSort (· ≤ ·) (acts.map (·.day)) with hdates
    have hdmem : ∀ x : Int, x ∈ dates ↔ x ∈ acts.map (·.day) := fun x =>
      (List.perm_insertionSort _ _).mem_iff
    have hdlen : dates.length = acts.length := by
      rw [hdates]
      simpa using (List.perm_insertionSort (· ≤ ·) (acts.map (·.day))).length_eq
    have hlt : streakLoop (acts.length + 1) today dates < acts.length + 1 :=
      streakLoop_lt_fuel _ today dates (by omega)
    refine ⟨?_, ?_, ?_, ?_⟩
    · intro j hj
      rw [hunfold] at hj
      exact (hdmem _).mp (streakLoop_mem _ today dates j hj)
    · rw [hunfold]
      intro hmem
      exact streakLoop_stop _ today dates hlt ((hdmem _).mpr hmem)
    · intro h; exact absurd (congrArg List.length h) (by simpa using hlen)
    · intro htoday
      rw [hunfold]
      rcases Nat.eq_zero_or_pos (streakLoop (acts.length + 1) today dates) with hz | hp
      · exact hz
      · exfalso
        have := streakLoop_mem (acts.length + 1) today dates 0 hp
        simp only [Nat.cast_zero, sub_zero] at this
        exact htoday ((hdmem _).mp this)

/-- Witness for C5 at `today = 10` with activity on days 9 and 10:
the streak is 2 and day 8 is outside the window. -/
theorem C5_calculateCurrentStreak_spec_witness :
    calculateCurrentStreak 10 [⟨9, 1⟩, ⟨10, 2⟩] = 2 ∧
      ((10 : Int) - (calculateCurrentStreak 10 [⟨9, 1⟩, ⟨10, 2⟩] : Nat)) ∉
        List.map (·.day) [(⟨9, 1⟩ : ActivityRec), ⟨10, 2⟩] :=
  ⟨by decide, (C5_calculateCurrentStreak_spec 10 [⟨9, 1⟩, ⟨10, 2⟩]).2.1⟩

/-! ## C9: the score distribution -/

theorem inScoreRange_true_of (tp lo hi : ℚ) (lab : String) (s : SubmissionRec)
    (h1 : lo ≤ percentageOf tp s) (h2 : percentageOf tp s ≤ hi) :
    inScoreRange tp (lab, lo, hi) s = true := by
  simp only [inScoreRange, Bool.and_eq_true, decide_eq_true_eq]
  exact ⟨h1, h2⟩

theorem inScoreRange_false_of_lo (tp lo hi : ℚ) (lab : String) (s : SubmissionRec)
    (h : percentageOf tp s < lo) : inScoreRange tp (lab, lo, hi) s = false := by
  rw [Bool.eq_false_iff]
  intro hb
  simp only [inScoreRange, Bool.and_eq_true, decide_eq_true_eq] at hb
  exact absurd hb.1 (not_le.mpr h)

theorem inScoreRange_false_of_hi (tp lo hi : ℚ) (lab : String) (s : SubmissionRec)
    (h : hi < percentageOf tp s) : inScoreRange tp (lab, lo, hi) s = false := by
  rw [Bool.eq_false_iff]
  intro hb
  simp only [inScoreRange, Bool.and_eq_true, decide_eq_true_eq] at hb
  exact absurd hb.2 (not_le.mpr h)

/-- A submission whose percentage lies in `[0, 100]` and avoids the four
uncovered open gaps `(20, 21), (40, 41), (60, 61), (80, 81)` is counted by
exactly one of the five buckets. -/
theorem rangesCounting_eq_one (tp : ℚ) (s : SubmissionRec)
    (h0 : 0 ≤ percentageOf tp s) (h100 : percentageOf tp s ≤ 100)
    (g1 : ¬(20 < percentageOf tp s ∧ percentageOf tp s < 21))
    (g2 : ¬(40 < percentageOf tp s ∧ percentageOf tp s < 41))
    (g3 : ¬(60 < percentageOf tp s ∧ percentageOf tp s < 61))
    (g4 : ¬(80 < percentageOf tp s ∧ percentageOf tp s < 81)) :
    rangesCounting tp s = 1 := by
  by_cases h20 : percentageOf tp s ≤ 20
  · have e1 := inScoreRange_true_of tp 0 20 "0-20" s h0 h20
    have e2 := inScoreRange_false_of_lo tp 21 40 "21-40" s (by linarith)
    have e3 := inScoreRange_false_of_lo tp 41 60 "41-60" s (by linarith)
    have e4 := inScoreRange_false_of_lo tp 61 80 "61-80" s (by linarith)
    have e5 := inScoreRange_false_of_lo tp 81 100 "81-100" s (by linarith)
    simp [rangesCounting, scoreRanges, List.filter, e1, e2, e3, e4, e5]
  · have h21 : 21 ≤ percentageOf tp s := by
      by_contra hc
      exact g1 ⟨by linarith, by linarith⟩
    by_cases h40 : percentageOf tp s ≤ 40
    · have e1 := inScoreRange_false_of_hi tp 0 20 "0-20" s (by linarith)
      have e2 := inScoreRange_true_of tp 21 40 "21-40" s h21 h40
      have e3 := inScoreRange_false_of_lo tp 41 60 "41-60" s (by linarith)
      have e4 := inScoreRange_false_of_lo tp 61 80 "61-80" s (by linarith)
      have e5 := inScoreRange_false_of_lo tp 81 100 "81-100" s (by linarith)
      simp [rangesCounting, scoreRanges, List.filter, e1, e2, e3, e4, e5]
    · have h41 : 41 ≤ percentageOf tp s := by
        by_contra hc
        exact g2 ⟨by linarith, by linarith⟩
      by_cases h60 : percentageOf tp s ≤ 60
      · have e1 := inScoreRange_false_of_hi tp 0 20 "0-20" s (by linarith)
        have e2 := inScoreRange_false_of_hi tp 21 40 "21-40" s (by linarith)
        have e3 := inScoreRange_true_of tp 41 60 "41-60" s h41 h60
        have e4 := inScoreRange_false_of_lo tp 61 80 "61-80" s (by linarith)
        have e5 := inScoreRange_false_of_lo tp 81 100 "81-100" s (by linarith)
        simp [rangesCounting, scoreRanges, List.filter, e1, e2, e3, e4, e5]
      · have h61 : 61 ≤ percentageOf tp s := by
          by_contra hc
          exact g3 ⟨by linarith, by linarith⟩
        by_cases h80 : percentageOf tp s ≤ 80
        · have e1 := inScoreRange_false_of_hi tp 0 20 "0-20" s (by linarith)
          have e2 := inScoreRange_false_of_hi tp 21 40 "21-40" s (by linarith)
          have e3 := inScoreRange_false_of_hi tp 41 60 "41-60" s (by linarith)
          have e4 := inScoreRange_true_of tp 61 80 "61-80" s h61 h80
          have e5 := inScoreRange_false_of_lo tp 81 100 "81-100" s (by linarith)
          simp [rangesCounting, scoreRanges, List.filter, e1, e2, e3, e4, e5]
        · have h81 : 81 ≤ percentageOf tp s := by
            by_contra hc
            exact g4 ⟨by linarith, by linarith⟩
          have e1 := inScoreRange_false_of_hi tp 0 20 "0-20" s (by linarith)
          have e2 := inScoreRange_false_of_hi tp 21 40 "21-40" s (by linarith)
          have e3 := inScoreRange_false_of_hi tp 41 60 "41-60" s (by linarith)
          have e4 := inScoreRange_false_of_hi tp 61 80 "61-80" s (by linarith)
          have e5 := inScoreRange_true_of tp 81 100 "81-100" s h81 h100
          simp [rangesCounting, scoreRanges, List.filter, e1, e2, e3, e4, e5]

theorem sum_map_ones {α : Type} (l : List α) (f : α → Nat) (h : ∀ x ∈ l, f x = 1) :
    (l.map f).sum = l.length := by
  induction l with
  | nil => rfl
  | cons a l ih =>
    have ha : f a = 1 := h a (List.mem_cons_self a l)
    have hrest := ih (fun x hx => h x (List.mem_cons_of_mem a hx))
    simp only [List.map_cons, List.sum_cons, ha, hrest, List.length_cons]
    omega

theorem sum_map_add_distrib {α : Type} (l : List α) (f g : α → Nat) :
    (l.map (fun x => f x + g x)).sum = (l.map f).sum + (l.map g).sum := by
  induction l with
  | nil => rfl
  | cons a l ih => simp only [List.map_cons, List.sum_cons, ih]; omega

theorem length_filter_eq_sum {α : Type} (l : List α) (p : α → Bool) :
    (l.filter p).length = (l.map (fun x => if p x then 1 else 0)).sum := by
  induction l with
  | nil => rfl
  | cons a l ih => by_cases h : p a <;> simp [List.filter_cons, h, ih] <;> omega

theorem sum_filter_counts (tp : ℚ) (subs : List SubmissionRec) :
    (scoreRanges.map (fun r => (subs.filter (inScoreRange tp r)).length)).sum
      = (subs.map (rangesCounting tp)).sum := by
  induction subs with
  | nil => simp
  | cons s rest ih =>
    have hsplit : scoreRanges.map
        (fun r => (List.filter (inScoreRange tp r) (s :: rest)).length) =
        scoreRanges.map (fun r => (if inScoreRange tp r s then 1 else 0) +
          (List.filter (inScoreRange tp r) rest).length) := by
      apply List.map_congr_left
      intro r _
      by_cases h : inScoreRange tp r s <;> simp [List.filter_cons, h] <;> omega
    rw [hsplit, sum_map_add_distrib, ih]
    have hcount : (scoreRanges.map (fun r => if inScoreRange tp r s then 1 else 0)).sum
        = rangesCounting tp s := by
      rw [rangesCounting, length_filter_eq_sum]
    simp [hcount]

/-- The bucket counts of `scoreDistribution`, summed, count every
submission once per bucket that contains it. -/
theorem scoreDistribution_sum_eq (tp : ℚ) (subs : List SubmissionRec) :
    ((scoreDistribution tp subs).map (·.2)).sum = (subs.map (rangesCounting tp)).sum := by
  have hproj : (scoreDistribution tp subs).map (·.2) =
      scoreRanges.map (fun r => (subs.filter (inScoreRange tp r)).length) := by
    simp [scoreDistribution, List.map_map]
  rw [hproj, sum_filter_counts]

/-- C9 (counterexample to the claim as stated): with `totalPoints = 200`
and a single submitted submission scoring `41`, the percentage is `20.5`,
inside `[0, 100]`, yet no bucket counts it, and the bucket counts sum to
`0` while there is `1` submission. -/
theorem C9_scoreDistribution_counterexample :
    0 ≤ percentageOf 200 ⟨41⟩ ∧ percentageOf 200 ⟨41⟩ ≤ 100 ∧
      rangesCounting 200 ⟨41⟩ = 0 ∧
      ((scoreDistribution 200 [⟨41⟩]).map (·.2)).sum = 0 ∧
      ([⟨41⟩] : List SubmissionRec).length = 1 := by
  refine ⟨?_, ?_, ?_, ?_, rfl⟩
  · norm_num [percentageOf]
  · norm_num [percentageOf]
  · norm_num [rangesCounting, scoreRanges, inScoreRange, percentageOf, List.filter]
  · norm_num [scoreDistribution, scoreRanges, inScoreRange, percentageOf, List.filter]

/-- C9 (amended): every submitted submission whose percentage score lies
in `[0, 100]` and does not fall in one of the uncovered open gaps
`(20, 21), (40, 41), (60, 61), (80, 81)` is counted in exactly one of the
five labeled ranges; when every submission is of that kind, the range
counts sum to the total number of submissions. -/
theorem C9_scoreDistribution_partition (tp : ℚ) (subs : List SubmissionRec)
    (h : ∀ s ∈ subs, 0 ≤ percentageOf tp s ∧ percentageOf tp s ≤ 100 ∧
      ¬(20 < percentageOf tp s ∧ percentageOf tp s < 21) ∧
      ¬(40 < percentageOf tp s ∧ percentageOf tp s < 41) ∧
      ¬(60 < percentageOf tp s ∧ percentageOf tp s < 61) ∧
      ¬(80 < percentageOf tp s ∧ percentageOf tp s < 81)) :
    (∀ s ∈ subs, rangesCounting tp s = 1) ∧
      ((scoreDistribution tp subs).map (·.2)).sum = subs.length := by
  have hone : ∀ s ∈ subs, rangesCounting tp s = 1 := by
    intro s hs
    obtain ⟨h0, h100, g1, g2, g3, g4⟩ := h s hs
    exact rangesCounting_eq_one tp s h0 h100 g1 g2 g3 g4
  refine ⟨hone, ?_⟩
  rw [scoreDistribution_sum_eq]
  exact sum_map_ones subs (rangesCounting tp) hone

/-- Witness for C9 (amended) with a single submission at 50%. -/
theorem C9_scoreDistribution_partition_witness :
    ((scoreDistribution 100 [⟨50⟩]).map (·.2)).sum = ([⟨50⟩] : List SubmissionRec).length :=
  (C9_scoreDistribution_partition 100 [⟨50⟩] (by
    intro s hs
    simp only [List.mem_singleton] at hs
    subst hs
    norm_num [percentageOf])).2

/-! ## C1: the circular-dependency check.

The DFS of `checkCircularDependency` is proved to detect exactly the
cycles of the subgraph it fetches (the given ids in the given
department), which refutes the full-graph reading of the claim. -/

theorem runList_cons (step : DfsState → String → Bool × DfsState) (st : DfsState)
    (p : String) (ps : List String) :
    runList step st (p :: ps) =
      if (step st p).1 = true then (true, (step st p).2)
      else runList step (step st p).2 ps := rfl

theorem hasCycleAux_succ (mods : List ModuleRec) (fuel : Nat) (st : DfsState)
    (cur : String) :
    hasCycleAux mods (fuel + 1) st cur =
      if st.recStack.contains cur then (true, st)
      else if st.visited.contains cur then (false, st)
      else
        let r := runList (hasCycleAux mods fuel)
          ⟨cur :: st.visited, cur :: st.recStack⟩ (succsOf mods cur)
        if r.1 then (true, r.2)
        else (false, ⟨r.2.visited, r.2.recStack.erase cur⟩) := rfl

theorem runList_stackContract (step : DfsState → String → Bool × DfsState)
    (hc : StackContract step) (l : List String) :
    ∀ st : DfsState, (runList step st l).1 = false →
      (runList step st l).2.recStack = st.recStack ∧
      st.visited ⊆ (runList step st l).2.visited := by
  induction l with
  | nil => intro st _; exact ⟨rfl, fun x hx => hx⟩
  | cons p ps ih =>
    intro st hfalse
    rw [runList_cons] at hfalse ⊢
    by_cases hp : (step st p).1 = true
    · rw [if_pos hp] at hfalse; exact Bool.noConfusion hfalse
    · rw [if_neg hp] at hfalse ⊢
      have h1 := hc st p (Bool.eq_false_iff.mpr hp)
      have h2 := ih (step st p).2 hfalse
      exact ⟨h2.1.trans h1.1, fun x hx => h2.2 (h1.2 hx)⟩

theorem hasCycleAux_stackContract (mods : List ModuleRec) :
    ∀ fuel : Nat, StackContract (hasCycleAux mods fuel) := by
  intro fuel
  induction fuel with
  | zero => intro st cur _; exact ⟨rfl, fun x hx => hx⟩
  | succ fuel ih =>
    intro st cur hfalse
    rw [hasCycleAux_succ] at hfalse ⊢
    by_cases h1 : st.recStack.contains cur = true
    · rw [if_pos h1] at hfalse; exact Bool.noConfusion hfalse
    · rw [if_neg h1] at hfalse ⊢
      by_cases h2 : st.visited.contains cur = true
      · rw [if_pos h2] at hfalse ⊢; exact ⟨rfl, fun x hx => hx⟩
      · rw [if_neg h2] at hfalse ⊢
        dsimp only at hfalse ⊢
        by_cases h3 : (runList (hasCycleAux mods fuel)
            ⟨cur :: st.visited, cur :: st.recStack⟩ (succsOf mods cur)).1 = true
        · rw [if_pos h3] at hfalse; exact Bool.noConfusion hfalse
        · rw [if_neg h3] at hfalse ⊢
          have hrl := runList_stackContract _ ih _ _ (Bool.eq_false_iff.mpr h3)
          constructor
          · show (runList (hasCycleAux mods fuel)
                ⟨cur :: st.visited, cur :: st.recStack⟩
                (succsOf mods cur)).2.recStack.erase cur = st.recStack
            rw [hrl.1]
            exact List.erase_cons_head cur st.recStack
          · intro x hx
            exact hrl.2 (List.mem_cons_of_mem cur hx)

theorem chainReach (mods : List ModuleRec) :
    ∀ (l : List String) (a : String), stackChain mods (a :: l) →
      ∀ y ∈ a :: l, Relation.ReflTransGen (CycleEdge mods) y a := by
  intro l
  induction l with
  | nil =>
    intro a _ y hy
    rw [List.mem_singleton] at hy
    subst hy
    exact Relation.ReflTransGen.refl
  | cons b l ih =>
    intro a hchain y hy
    rcases List.mem_cons.mp hy with rfl | hy2
    · exact Relation.ReflTransGen.refl
    · exact (ih b hchain.2 y hy2).tail hchain.1

theorem runList_sound (mods : List ModuleRec)
    (step : DfsState → String → Bool × DfsState)
    (hstack : StackContract step) (hsound : SoundContract mods step) :
    ∀ (l : List String) (st : DfsState), stackChain mods st.recStack →
      (∀ p ∈ l, headConnected mods st.recStack p) →
      (runList step st l).1 = true →
      ∃ v, Relation.TransGen (CycleEdge mods) v v := by
  intro l
  induction l with
  | nil => intro st _ _ htrue; exact Bool.noConfusion htrue
  | cons p ps ih =>
    intro st hchain hheads htrue
    rw [runList_cons] at htrue
    by_cases hp : (step st p).1 = true
    · exact hsound st p hchain (hheads p (List.mem_cons_self p ps)) hp
    · rw [if_neg hp] at htrue
      have hpres := hstack st p (Bool.eq_false_iff.mpr hp)
      refine ih (step st p).2 ?_ ?_ htrue
      · rw [hpres.1]; exact hchain
      · intro q hq; rw [hpres.1]; exact hheads q (List.mem_cons_of_mem p hq)

theorem hasCycleAux_sound (mods : List ModuleRec) :
    ∀ fuel : Nat, SoundContract mods (hasCycleAux mods fuel) := by
  intro fuel
  induction fuel with
  | zero => intro st cur _ _ htrue; exact Bool.noConfusion htrue
  | succ fuel ih =>
    intro st cur hchain hhead htrue
    rw [hasCycleAux_succ] at htrue
    by_cases h1 : st.recStack.contains cur = true
    · have hmem : cur ∈ st.recStack := List.elem_iff.mp h1
      rcases hstk : st.recStack with _ | ⟨t, rest⟩
      · rw [hstk] at hmem; cases hmem
      · rw [hstk] at hmem hchain hhead
        have hreach := chainReach mods rest t hchain cur hmem
        exact ⟨cur, Relation.TransGen.tail' hreach hhead⟩
    · rw [if_neg h1] at htrue
      by_cases h2 : st.visited.contains cur = true
      · rw [if_pos h2] at htrue; exact Bool.noConfusion htrue
      · rw [if_neg h2] at htrue
        dsimp only at htrue
        by_cases h3 : (runList (hasCycleAux mods fuel)
            ⟨cur :: st.visited, cur :: st.recStack⟩ (succsOf mods cur)).1 = true
        · refine runList_sound mods _ (hasCycleAux_stackContract mods fuel) ih
            (succsOf mods cur) ⟨cur :: st.visited, cur :: st.recStack⟩ ?_ ?_ h3
          · show stackChain mods (cur :: st.recStack)
            rcases hstk : st.recStack with _ | ⟨t, rest⟩
            · trivial
            · rw [hstk] at hhead hchain
              exact ⟨hhead, hchain⟩
          · intro p hp
            exact hp
        · rw [if_neg h3] at htrue; exact Bool.noConfusion htrue

theorem dfsMeasure_mono (U : List String) (st st' : DfsState)
    (h : st.visited ⊆ st'.visited) : dfsMeasure U st' ≤ dfsMeasure U st := by
  apply Finset.card_le_card
  intro x hx
  rw [Finset.mem_sdiff] at hx ⊢
  exact ⟨hx.1, fun hc => hx.2 (List.mem_toFinset.mpr (h (List.mem_toFinset.mp hc)))⟩

theorem dfsMeasure_push (U : List String) (st : DfsState) (cur : String)
    (hU : cur ∈ U) (hnv : cur ∉ st.visited) :
    dfsMeasure U (⟨cur :: st.visited, cur :: st.recStack⟩ : DfsState) + 1 =
      dfsMeasure U st := by
  unfold dfsMeasure
  have hmem : cur ∈ U.toFinset \ st.visited.toFinset := by
    rw [Finset.mem_sdiff]
    exact ⟨List.mem_toFinset.mpr hU, fun hc => hnv (List.mem_toFinset.mp hc)⟩
  have hpos := Finset.card_pos.mpr ⟨cur, hmem⟩
  have herase : (U.toFinset \ ((cur :: st.visited : List String)).toFinset) =
      (U.toFinset \ st.visited.toFinset).erase cur := by
    rw [List.toFinset_cons, Finset.sdiff_insert]
  rw [herase, Finset.card_erase_of_mem hmem]
  omega

theorem finished_reach_closed (mods : List ModuleRec) (st : DfsState)
    (hinv : DfsInv mods st) (u x : String) (hu : finishedIn st u)
    (hr : Relation.ReflTransGen (CycleEdge mods) u x) : finishedIn st x := by
  induction hr with
  | refl => exact hu
  | tail hrb hedge ih => exact (hinv _ ih).1 _ hedge

theorem dfsInv_push (mods : List ModuleRec) (st : DfsState) (cur : String)
    (hnv : cur ∉ st.visited) (hinv : DfsInv mods st) :
    DfsInv mods ⟨cur :: st.visited, cur :: st.recStack⟩ := by
  intro u hu
  obtain ⟨huv, hus⟩ := hu
  have hune : u ≠ cur := fun h => hus (h ▸ List.mem_cons_self cur st.recStack)
  have huv' : u ∈ st.visited := by
    rcases List.mem_cons.mp huv with h | h
    · exact absurd h hune
    · exact h
  have hus' : u ∉ st.recStack := fun h => hus (List.mem_cons_of_mem cur h)
  obtain ⟨hclos, hnc⟩ := hinv u ⟨huv', hus'⟩
  refine ⟨?_, hnc⟩
  intro w hw
  obtain ⟨hwv, hws⟩ := hclos w hw
  have hwne : w ≠ cur := fun h => hnv (h ▸ hwv)
  refine ⟨List.mem_cons_of_mem cur hwv, fun h => ?_⟩
  rcases List.mem_cons.mp h with h2 | h2
  · exact hwne h2
  · exact hws h2

theorem runList_complete (mods : List ModuleRec) (U : List String) (fuel : Nat)
    (step : DfsState → String → Bool × DfsState)
    (hcomp : CompleteContract mods U fuel step) :
    ∀ (l : List String) (st : DfsState),
      dfsMeasure U st + 1 < fuel → st.recStack ⊆ st.visited → DfsInv mods st →
      (∀ p ∈ l, p ∈ U) → (runList step st l).1 = false →
      ((runList step st l).2.recStack = st.recStack ∧
       st.visited ⊆ (runList step st l).2.visited ∧
       DfsInv mods (runList step st l).2 ∧
       dfsMeasure U (runList step st l).2 ≤ dfsMeasure U st ∧
       ∀ p ∈ l, finishedIn (runList step st l).2 p) := by
  intro l
  induction l with
  | nil =>
    intro st _ _ hinv _ _
    exact ⟨rfl, fun x hx => hx, hinv, le_refl _,
      fun p hp => absurd hp (List.not_mem_nil p)⟩
  | cons p ps ih =>
    intro st hfuel hsub hinv hpU hfalse
    rw [runList_cons] at hfalse ⊢
    by_cases hp : (step st p).1 = true
    · rw [if_pos hp] at hfalse; exact Bool.noConfusion hfalse
    · rw [if_neg hp] at hfalse ⊢
      have hp' := Bool.eq_false_iff.mpr hp
      obtain ⟨hst1, hvis1, hinv1, hmu1, hfin1⟩ :=
        hcomp st p hfuel hsub hinv (hpU p (List.mem_cons_self p ps)) hp'
      obtain ⟨hst2, hvis2, hinv2, hmu2, hfin2⟩ :=
        ih (step st p).2 (by omega)
          (by rw [hst1]; exact fun x hx => hvis1 (hsub hx))
          hinv1 (fun q hq => hpU q (List.mem_cons_of_mem p hq)) hfalse
      refine ⟨hst2.trans hst1, fun x hx => hvis2 (hvis1 hx), hinv2,
        le_trans hmu2 hmu1, ?_⟩
      intro q hq
      rcases List.mem_cons.mp hq with rfl | hq2
      · exact ⟨hvis2 hfin1.1, fun hmem => hfin1.2 (by rw [← hst2]; exact hmem)⟩
      · exact hfin2 q hq2

theorem hasCycleAux_complete (mods : List ModuleRec) (U : List String)
    (hU : ∀ c p, p ∈ succsOf mods c → p ∈ U) :
    ∀ fuel : Nat, CompleteContract mods U fuel (hasCycleAux mods fuel) := by
  intro fuel
  induction fuel with
  | zero => intro st cur hfuel; exact absurd hfuel (by omega)
  | succ fuel ih =>
    intro st cur hfuel hsub hinv hcurU hfalse
    rw [hasCycleAux_succ] at hfalse ⊢
    by_cases h1 : st.recStack.contains cur = true
    · rw [if_pos h1] at hfalse; exact Bool.noConfusion hfalse
    · rw [if_neg h1] at hfalse ⊢
      have hnstack : cur ∉ st.recStack := fun h => h1 (List.elem_iff.mpr h)
      by_cases h2 : st.visited.contains cur = true
      · rw [if_pos h2] at hfalse ⊢
        exact ⟨rfl, fun x hx => hx, hinv, le_refl _, List.elem_iff.mp h2, hnstack⟩
      · rw [if_neg h2] at hfalse ⊢
        dsimp only at hfalse ⊢
        have hnv : cur ∉ st.visited := fun h => h2 (List.elem_iff.mpr h)
        set st1 : DfsState := ⟨cur :: st.visited, cur :: st.recStack⟩ with hst1def
        set r := runList (hasCycleAux mods fuel) st1 (succsOf mods cur) with hrdef
        by_cases h3 : r.1 = true
        · rw [if_pos h3] at hfalse; exact Bool.noConfusion hfalse
        · rw [if_neg h3] at hfalse ⊢
          have h3' := Bool.eq_false_iff.mpr h3
          have hpush := dfsMeasure_push U st cur hcurU hnv
          rw [← hst1def] at hpush
          obtain ⟨hst2, hvis2, hinv2, hmu2, hfin2⟩ :=
            runList_complete mods U fuel (hasCycleAux mods fuel) ih
              (succsOf mods cur) st1 (by omega)
              (by intro x hx
                  rcases List.mem_cons.mp hx with rfl | hx2
                  · exact List.mem_cons_self _ _
                  · exact List.mem_cons_of_mem _ (hsub hx2))
              (dfsInv_push mods st cur hnv hinv)
              (fun p hp => hU cur p hp) h3'
          have hstack2 : r.2.recStack = cur :: st.recStack := hst2
          have herase : r.2.recStack.erase cur = st.recStack := by
            rw [hstack2]; exact List.erase_cons_head cur st.recStack
          have hvis1 : st.visited ⊆ r.2.visited :=
            fun x hx => hvis2 (List.mem_cons_of_mem _ hx)
          refine ⟨herase, hvis1, ?_, ?_, ?_⟩
          · -- the invariant for the popped state ⟨r.2.visited, st.recStack⟩
            show DfsInv mods (⟨r.2.visited, r.2.recStack.erase cur⟩ : DfsState)
            rw [herase]
            intro u hu
            obtain ⟨huv, hust⟩ := hu
            by_cases hucur : u = cur
            · subst hucur
              constructor
              · intro w hw
                have hwfin := hfin2 w hw
                exact ⟨hwfin.1, fun hws => hwfin.2 (by
                  rw [hstack2]; exact List.mem_cons_of_mem _ hws)⟩
              · rintro ⟨w, hreach, hcyc⟩
                rcases Relation.ReflTransGen.cases_head hreach with rfl | ⟨c, hedge, hcw⟩
                · obtain ⟨c, hedge, hcw⟩ := Relation.TransGen.head'_iff.mp hcyc
                  have hcfin : finishedIn r.2 c := hfin2 c hedge
                  have hufin := finished_reach_closed mods r.2 hinv2 c _ hcfin hcw
                  exact hufin.2 (by rw [hstack2]; exact List.mem_cons_self _ _)
                · have hcfin : finishedIn r.2 c := hfin2 c hedge
                  have hwfin := finished_reach_closed mods r.2 hinv2 c w hcfin hcw
                  exact (hinv2 w hwfin).2 ⟨w, Relation.ReflTransGen.refl, hcyc⟩
            · have hust2 : u ∉ r.2.recStack := by
                rw [hstack2]
                intro h
                rcases List.mem_cons.mp h with h | h
                · exact hucur h
                · exact hust h
              obtain ⟨hclos, hnc⟩ := hinv2 u ⟨huv, hust2⟩
              refine ⟨?_, hnc⟩
              intro w hw
              obtain ⟨hwv, hws⟩ := hclos w hw
              refine ⟨hwv, fun hwst => hws ?_⟩
              rw [hstack2]; exact List.mem_cons_of_mem _ hwst
          · exact dfsMeasure_mono U st ⟨r.2.visited, r.2.recStack.erase cur⟩ hvis1
          · exact ⟨hvis2 (List.mem_cons_self _ _), fun hmem => hnstack (herase ▸ hmem)⟩

/-- A node with an outgoing edge is the id of a fetched module, hence one
of the given ids. -/
theorem cycleEdge_source_mem (db : List ModuleRec) (dept : String)
    (ids : List String) (v c : String)
    (hedge : CycleEdge (fetchModules db dept ids) v c) : v ∈ ids := by
  unfold CycleEdge succsOf at hedge
  rcases hfind : List.find? (fun m => m.id == v) (fetchModules db dept ids) with _ | m
  · rw [hfind] at hedge; cases hedge
  · have hmmem := List.mem_of_find?_eq_some hfind
    have hmid : m.id = v := by simpa using List.find?_some hfind
    have hpred := (List.mem_filter.mp hmmem).2
    simp only [Bool.and_eq_true] at hpred
    exact hmid ▸ List.elem_iff.mp hpred.1

/-- The DFS of `checkCircularDependency` answers `true` exactly when the
graph it fetched — the given ids restricted to the given department, with
edges to their prerequisites — has a cycle. -/
theorem checkCircularDependency_iff (db : List ModuleRec) (dept : String)
    (ids : List String) :
    checkCircularDependency db dept ids = true ↔
      ∃ v, Relation.TransGen (CycleEdge (fetchModules db dept ids)) v v := by
  set mods := fetchModules db dept ids with hmods
  set fuel := ids.length + (mods.map fun m => m.prerequisites.length).sum + 2 with hfueldef
  have hdef : checkCircularDependency db dept ids =
      (runList (hasCycleAux mods fuel) ⟨[], []⟩ ids).1 := rfl
  constructor
  · intro htrue
    rw [hdef] at htrue
    exact runList_sound mods _ (hasCycleAux_stackContract mods fuel)
      (hasCycleAux_sound mods fuel) ids ⟨[], []⟩ trivial (fun p _ => trivial) htrue
  · rintro ⟨v, hcyc⟩
    by_contra hfalse'
    have hfalse : (runList (hasCycleAux mods fuel) ⟨[], []⟩ ids).1 = false := by
      rw [← hdef]; exact Bool.eq_false_iff.mpr hfalse'
    obtain ⟨c, hedge, -⟩ := Relation.TransGen.head'_iff.mp hcyc
    have hvids : v ∈ ids := cycleEdge_source_mem db dept ids v c hedge
    set U := ids ++ mods.flatMap (fun m => m.prerequisites) with hUdef
    have hU : ∀ c p, p ∈ succsOf mods c → p ∈ U := by
      intro c p hp
      unfold succsOf at hp
      rcases hfind : List.find? (fun m => m.id == c) mods with _ | m
      · rw [hfind] at hp; cases hp
      · rw [hfind] at hp
        exact List.mem_append_right _
          (List.mem_flatMap.mpr ⟨m, List.mem_of_find?_eq_some hfind, hp⟩)
    have hfuelbig : dfsMeasure U ⟨[], []⟩ + 1 < fuel := by
      have h1 : dfsMeasure U (⟨[], []⟩ : DfsState) ≤ U.length := by
        unfold dfsMeasure
        exact le_trans (Finset.card_le_card Finset.sdiff_subset) (List.toFinset_card_le U)
      have h2 : U.length = ids.length + (mods.map fun m => m.prerequisites.length).sum := by
        rw [hUdef, List.length_append, List.length_flatMap]
        rfl
      omega
    obtain ⟨-, -, hinvf, -, hfinf⟩ :=
      runList_complete mods U fuel (hasCycleAux mods fuel)
        (hasCycleAux_complete mods U hU fuel) ids ⟨[], []⟩ hfuelbig
        (fun x hx => (List.not_mem_nil x hx).elim)
        (fun u hu => (List.not_mem_nil u hu.1).elim)
        (fun p hp => List.mem_append_left _ hp) hfalse
    exact (hinvf v (hfinf v hvids)).2 ⟨v, Relation.ReflTransGen.refl, hcyc⟩

theorem createGroupCheck_cases (dbG : List GroupRec) (u : UserRec) (dept : String)
    (gs : List String) (r : CreateModuleResult)
    (h : createGroupCheck dbG u dept gs = some r) :
    r = .invalidGroups ∨ r = .notTeachersGroup := by
  unfold createGroupCheck at h
  dsimp only at h
  split_ifs at h
  all_goals first
    | exact Or.inl (Option.some.inj h).symm
    | exact Or.inr (Option.some.inj h).symm
    | cases h

theorem createPrereqCheck_cases (dbM : List ModuleRec) (dept : String)
    (ps : List String) (r : CreateModuleResult)
    (h : createPrereqCheck dbM dept ps = some r) :
    r = .invalidPrereqs ∨
      (r = .circularDependency ∧ checkCircularDependency dbM dept ps = true) := by
  unfold createPrereqCheck at h
  dsimp only at h
  split_ifs at h with h1 h2 h3
  all_goals first
    | exact Or.inl (Option.some.inj h).symm
    | exact Or.inr ⟨(Option.some.inj h).symm, h3⟩
    | cases h

/-- Creation answers the circular-dependency error only when the check
holds on the request's department and prerequisites. -/
theorem createModule_circ_check (dbD : List DepartmentRec) (dbG : List GroupRec)
    (dbM : List ModuleRec) (u : UserRec) (newId : String) (now : Int)
    (b : CreateModuleBody)
    (h : createModule dbD dbG dbM u newId now b = .circularDependency) :
    checkCircularDependency dbM b.department b.prerequisites = true := by
  by_cases hv : validCreateModuleBody b = true
  · rcases hfind : dbD.find? (fun dd => dd.id == b.department) with _ | dd
    · have heq : createModule dbD dbG dbM u newId now b = .departmentNotFound := by
        simp [createModule, hv, hfind]
      rw [heq] at h; exact absurd h (by simp)
    · by_cases hact : dd.isActive = true
      · by_cases hhod : (u.roleName == "HOD" && !(dd.id == u.department)) = true
        · have heq : createModule dbD dbG dbM u newId now b = .wrongDepartment := by
            simp [createModule, hv, hfind, hact, hhod]
          rw [heq] at h; exact absurd h (by simp)
        · have hhodf := Bool.eq_false_iff.mpr hhod
          rcases hg : createGroupCheck dbG u b.department b.groups with _ | r
          · rcases hp : createPrereqCheck dbM b.department b.prerequisites with _ | r
            · have heq : createModule dbD dbG dbM u newId now b ≠ .circularDependency := by
                simp [createModule, hv, hfind, hact, hhodf, hg, hp]
              exact absurd h heq
            · have heq : createModule dbD dbG dbM u newId now b = r := by
                simp [createModule, hv, hfind, hact, hhodf, hg, hp]
              rw [heq] at h
              rcases createPrereqCheck_cases _ _ _ _ hp with rfl | ⟨rfl, hchk⟩
              · exact absurd h (by simp)
              · exact hchk
          · have heq : createModule dbD dbG dbM u newId now b = r := by
              simp [createModule, hv, hfind, hact, hhodf, hg]
            rw [heq] at h
            rcases createGroupCheck_cases _ _ _ _ _ hg with rfl | rfl
            · exact absurd h (by simp)
            · exact absurd h (by simp)
      · have hactf := Bool.eq_false_iff.mpr hact
        have heq : createModule dbD dbG dbM u newId now b = .departmentNotFound := by
          simp [createModule, hv, hfind, hactf]
        rw [heq] at h; exact absurd h (by simp)
  · have heq : createModule dbD dbG dbM u newId now b = .validationFailed := by
      simp [createModule, Bool.eq_false_iff.mpr hv]
    rw [heq] at h; exact absurd h (by simp)

/-- Under the earlier validations, creation answers the
circular-dependency error exactly when the check holds. -/
theorem createModule_circ_iff (dbD : List DepartmentRec) (dbG : List GroupRec)
    (dbM : List ModuleRec) (u : UserRec) (newId : String) (now : Int)
    (b : CreateModuleBody) (dd : DepartmentRec)
    (hval : validCreateModuleBody b = true)
    (hfind : dbD.find? (fun x => x.id == b.department) = some dd)
    (hact : dd.isActive = true)
    (hhod : (u.roleName == "HOD" && !(dd.id == u.department)) = false)
    (hgroup : createGroupCheck dbG u b.department b.groups = none)
    (hlen : (dbM.filter fun m => b.prerequisites.contains m.id &&
        m.department == b.department && m.isActive).length = b.prerequisites.length)
    (hne : b.prerequisites ≠ []) :
    (createModule dbD dbG dbM u newId now b = .circularDependency ↔
      checkCircularDependency dbM b.department b.prerequisites = true) := by
  have hstep : createModule dbD dbG dbM u newId now b =
      (if checkCircularDependency dbM b.department b.prerequisites then
        CreateModuleResult.circularDependency
      else
        .created
          { id := newId, title := strTrim b.title,
            description := b.description.map strTrim,
            department := b.department, groups := b.groups,
            createdBy := u.id,
            difficulty := b.difficulty.getD "beginner",
            estimatedHours := b.estimatedHours,
            tags := b.tags.map (fun t => strLower (strTrim t)),
            prerequisites := b.prerequisites, questions := [], notes := [],
            sortOrder := b.sortOrder.getD 0, isActive := true,
            createdAt := now }) := by
    have hpc : createPrereqCheck dbM b.department b.prerequisites =
        (if checkCircularDependency dbM b.department b.prerequisites then
          some .circularDependency
        else none) := by
      unfold createPrereqCheck
      dsimp only
      rw [if_pos (List.length_pos.mpr hne), if_neg (by rw [hlen]; simp)]
    simp only [createModule, hval, Bool.not_true, Bool.false_eq_true, if_false,
      hfind, hact, hhod, hgroup, hpc]
    split_ifs <;> rfl
  rw [hstep]
  by_cases hchk : checkCircularDependency dbM b.department b.prerequisites = true
  · rw [if_pos hchk]
    exact ⟨fun _ => hchk, fun _ => rfl⟩
  · rw [if_neg hchk]
    exact ⟨fun hcr => absurd hcr (by simp), fun hc => absurd hc hchk⟩

theorem updateGroupCheck_cases (dbG : List GroupRec) (u : UserRec) (dept : String)
    (gs : Option (List String)) (r : UpdateModuleResult)
    (h : updateGroupCheck dbG u dept gs = some r) :
    r = .invalidGroups ∨ r = .notTeachersGroup := by
  unfold updateGroupCheck at h
  rcases gs with _ | gs
  · cases h
  · dsimp only at h
    split_ifs at h
    all_goals first
      | exact Or.inl (Option.some.inj h).symm
      | exact Or.inr (Option.some.inj h).symm
      | cases h

theorem updatePrereqCheck_cases (dbM : List ModuleRec) (dept id : String)
    (pre : Option (List String)) (r : UpdateModuleResult)
    (h : updatePrereqCheck dbM dept id pre = some r) :
    r = .invalidPrereqs ∨
      (r = .circularDependency ∧ ∃ ps, pre = some ps ∧
        checkCircularDependency dbM dept (ps ++ [id]) = true) := by
  unfold updatePrereqCheck at h
  rcases pre with _ | ps
  · cases h
  · dsimp only at h
    split_ifs at h with h1 h2
    all_goals first
      | exact Or.inl (Option.some.inj h).symm
      | exact Or.inr ⟨(Option.some.inj h).symm, ps, rfl, h2⟩
      | cases h

/-- Update answers the circular-dependency error only when the check
holds on the found module's department and the new prerequisites plus
the updated id. -/
theorem updateModule_circ_check (dbG : List GroupRec) (dbM : List ModuleRec)
    (u : UserRec) (id : String) (b : UpdateModuleBody)
    (h : (updateModule dbG dbM u id b).1 = .circularDependency) :
    ∃ m0 ps, findModuleForManage dbM u id = some m0 ∧ b.prerequisites = some ps ∧
      checkCircularDependency dbM m0.department (ps ++ [id]) = true := by
  by_cases hv : (isMongoId id && validUpdateModuleBody b) = true
  · rcases hfound : findModuleForManage dbM u id with _ | m0
    · have heq : (updateModule dbG dbM u id b).1 = .notFound := by
        simp [updateModule, hv, hfound]
      rw [heq] at h; exact absurd h (by simp)
    · rcases hg : updateGroupCheck dbG u m0.department b.groups with _ | r
      · rcases hp : updatePrereqCheck dbM m0.department id b.prerequisites with _ | r
        · have heq : (updateModule dbG dbM u id b).1 =
              .updated (applyModuleUpdate b m0) := by
            simp [updateModule, hv, hfound, hg, hp]
          rw [heq] at h; exact absurd h (by simp)
        · have heq : (updateModule dbG dbM u id b).1 = r := by
            simp [updateModule, hv, hfound, hg, hp]
          rw [heq] at h
          rcases updatePrereqCheck_cases _ _ _ _ _ hp with rfl | ⟨rfl, ps, hps, hchk⟩
          · exact absurd h (by simp)
          · exact ⟨m0, ps, rfl, hps, hchk⟩
      · have heq : (updateModule dbG dbM u id b).1 = r := by
          simp [updateModule, hv, hfound, hg]
        rw [heq] at h
        rcases updateGroupCheck_cases _ _ _ _ _ hg with rfl | rfl
        · exact absurd h (by simp)
        · exact absurd h (by simp)
  · have heq : (updateModule dbG dbM u id b).1 = .validationFailed := by
      simp [updateModule, Bool.eq_false_iff.mpr hv]
    rw [heq] at h; exact absurd h (by simp)

/-- Under the earlier validations, update answers the
circular-dependency error exactly when the check holds on
`prerequisites ++ [id]`. -/
theorem updateModule_circ_iff (dbG : List GroupRec) (dbM : List ModuleRec)
    (u : UserRec) (id : String) (b : UpdateModuleBody) (m0 : ModuleRec)
    (ps : List String)
    (hval : (isMongoId id && validUpdateModuleBody b) = true)
    (hfound : findModuleForManage dbM u id = some m0)
    (hgroup : updateGroupCheck dbG u m0.department b.groups = none)
    (hps : b.prerequisites = some ps)
    (hlen : (dbM.filter fun m => m.department == m0.department && m.isActive &&
        !(m.id == id)).length = ps.length) :
    ((updateModule dbG dbM u id b).1 = .circularDependency ↔
      checkCircularDependency dbM m0.department (ps ++ [id]) = true) := by
  have hpc : updatePrereqCheck dbM m0.department id b.prerequisites =
      (if checkCircularDependency dbM m0.department (ps ++ [id]) then
        some .circularDependency
      else none) := by
    unfold updatePrereqCheck
    rw [hps]
    dsimp only
    rw [if_neg (by rw [hlen]; simp)]
  have hstep : (updateModule dbG dbM u id b).1 =
      (if checkCircularDependency dbM m0.department (ps ++ [id]) then
        UpdateModuleResult.circularDependency
      else .updated (applyModuleUpdate b m0)) := by
    simp only [updateModule, hval, Bool.not_true, Bool.false_eq_true, if_false,
      hfound, hgroup, hpc]
    split_ifs <;> rfl
  rw [hstep]
  by_cases hchk : checkCircularDependency dbM m0.department (ps ++ [id]) = true
  · rw [if_pos hchk]
    exact ⟨fun _ => hchk, fun _ => rfl⟩
  · rw [if_neg hchk]
    exact ⟨fun hcr => absurd hcr (by simp), fun hc => absurd hc hchk⟩

/-- C1 (counterexample to the claim as stated): with modules `a`
(prerequisite `b`) and `b` (prerequisite `a`) in department `d`, the
directed graph whose edges run from each module to its prerequisite
modules has a cycle reachable from the given id `a`, yet
`checkCircularDependency` over `["a"]` returns `false`: it fetches only
the modules among the given ids, so the edge out of `b` is invisible. -/
theorem C1_checkCircularDependency_counterexample :
    checkCircularDependency
      [⟨"a", "t", none, "d", [], "u9", "beginner", none, [], ["b"], [], [], 0, true, 0⟩,
       ⟨"b", "t", none, "d", [], "u9", "beginner", none, [], ["a"], [], [], 0, true, 0⟩]
      "d" ["a"] = false ∧
    (∃ v, Relation.ReflTransGen
        (prereqEdge
          [⟨"a", "t", none, "d", [], "u9", "beginner", none, [], ["b"], [], [], 0, true, 0⟩,
           ⟨"b", "t", none, "d", [], "u9", "beginner", none, [], ["a"], [], [], 0, true, 0⟩])
        "a" v ∧
      Relation.TransGen
        (prereqEdge
          [⟨"a", "t", none, "d", [], "u9", "beginner", none, [], ["b"], [], [], 0, true, 0⟩,
           ⟨"b", "t", none, "d", [], "u9", "beginner", none, [], ["a"], [], [], 0, true, 0⟩])
        v v) := by
  constructor
  · decide
  · refine ⟨"a", Relation.ReflTransGen.refl, ?_⟩
    have hab : prereqEdge
        [⟨"a", "t", none, "d", [], "u9", "beginner", none, [], ["b"], [], [], 0, true, 0⟩,
         ⟨"b", "t", none, "d", [], "u9", "beginner", none, [], ["a"], [], [], 0, true, 0⟩]
        "a" "b" :=
      ⟨⟨"a", "t", none, "d", [], "u9", "beginner", none, [], ["b"], [], [], 0, true, 0⟩,
        by simp, rfl, by simp⟩
    have hba : prereqEdge
        [⟨"a", "t", none, "d", [], "u9", "beginner", none, [], ["b"], [], [], 0, true, 0⟩,
         ⟨"b", "t", none, "d", [], "u9", "beginner", none, [], ["a"], [], [], 0, true, 0⟩]
        "b" "a" :=
      ⟨⟨"b", "t", none, "d", [], "u9", "beginner", none, [], ["a"], [], [], 0, true, 0⟩,
        by simp, rfl, by simp⟩
    exact Relation.TransGen.head hab (Relation.TransGen.single hba)

/-- C1 (amended): `checkCircularDependency` performs a depth-first cycle
check over the subgraph it fetches: it returns `true` exactly when the
directed graph whose nodes are the given module ids that exist in the
given department, with edges from each such module to its prerequisites,
contains a cycle (such a cycle is automatically reachable from one of the
given ids, its nodes being among them).  Module creation with a non-empty
prerequisites list that passes the prerequisite existence validation is
rejected with 'Circular dependency detected in prerequisites' exactly
when this check returns `true` on the request's department and
prerequisites, and the same for update with the check run on the new
prerequisites plus the updated module's id. -/
theorem C1_checkCircularDependency_restricted :
    (∀ (db : List ModuleRec) (dept : String) (ids : List String),
      checkCircularDependency db dept ids = true ↔
        ∃ v, Relation.TransGen (CycleEdge (fetchModules db dept ids)) v v) ∧
    (∀ (dbD : List DepartmentRec) (dbG : List GroupRec) (dbM : List ModuleRec)
        (u : UserRec) (newId : String) (now : Int) (b : CreateModuleBody),
      createModule dbD dbG dbM u newId now b = .circularDependency →
        checkCircularDependency dbM b.department b.prerequisites = true) ∧
    (∀ (dbD : List DepartmentRec) (dbG : List GroupRec) (dbM : List ModuleRec)
        (u : UserRec) (newId : String) (now : Int) (b : CreateModuleBody)
        (dd : DepartmentRec),
      validCreateModuleBody b = true →
      dbD.find? (fun x => x.id == b.department) = some dd →
      dd.isActive = true →
      (u.roleName == "HOD" && !(dd.id == u.department)) = false →
      createGroupCheck dbG u b.department b.groups = none →
      (dbM.filter fun m => b.prerequisites.contains m.id &&
          m.department == b.department && m.isActive).length = b.prerequisites.length →
      b.prerequisites ≠ [] →
      (createModule dbD dbG dbM u newId now b = .circularDependency ↔
        checkCircularDependency dbM b.department b.prerequisites = true)) ∧
    (∀ (dbG : List GroupRec) (dbM : List ModuleRec) (u : UserRec) (id : String)
        (b : UpdateModuleBody),
      (updateModule dbG dbM u id b).1 = .circularDependency →
        ∃ m0 ps, findModuleForManage dbM u id = some m0 ∧
          b.prerequisites = some ps ∧
          checkCircularDependency dbM m0.department (ps ++ [id]) = true) ∧
    (∀ (dbG : List GroupRec) (dbM : List ModuleRec) (u : UserRec) (id : String)
        (b : UpdateModuleBody) (m0 : ModuleRec) (ps : List String),
      (isMongoId id && validUpdateModuleBody b) = true →
      findModuleForManage dbM u id = some m0 →
      updateGroupCheck dbG u m0.department b.groups = none →
      b.prerequisites = some ps →
      (dbM.filter fun m => m.department == m0.department && m.isActive &&
          !(m.id == id)).length = ps.length →
      ((updateModule dbG dbM u id b).1 = .circularDependency ↔
        checkCircularDependency dbM m0.department (ps ++ [id]) = true)) :=
  ⟨checkCircularDependency_iff, createModule_circ_check, createModule_circ_iff,
    updateModule_circ_check, updateModule_circ_iff⟩

/-- Witness for C1 (amended): a creation request whose two prerequisites
form a cycle (`a` requires `b`, `b` requires `a`) is rejected as a
circular dependency. -/
theorem C1_checkCircularDependency_restricted_witness :
    createModule [⟨"dddddddddddddddddddddddd", true⟩] []
      [⟨"aaaaaaaaaaaaaaaaaaaaaaaa", "t", none, "dddddddddddddddddddddddd", [], "u9",
         "beginner", none, [], ["bbbbbbbbbbbbbbbbbbbbbbbb"], [], [], 0, true, 0⟩,
       ⟨"bbbbbbbbbbbbbbbbbbbbbbbb", "t", none, "dddddddddddddddddddddddd", [], "u9",
         "beginner", none, [], ["aaaaaaaaaaaaaaaaaaaaaaaa"], [], [], 0, true, 0⟩]
      ⟨"u1", "Admin", "d1", []⟩ "n1" 0
      ⟨"T", none, "dddddddddddddddddddddddd", [], none, none, [],
        ["aaaaaaaaaaaaaaaaaaaaaaaa", "bbbbbbbbbbbbbbbbbbbbbbbb"], none⟩ =
      CreateModuleResult.circularDependency :=
  (C1_checkCircularDependency_restricted.2.2.1
    [⟨"dddddddddddddddddddddddd", true⟩] []
    [⟨"aaaaaaaaaaaaaaaaaaaaaaaa", "t", none, "dddddddddddddddddddddddd", [], "u9",
       "beginner", none, [], ["bbbbbbbbbbbbbbbbbbbbbbbb"], [], [], 0, true, 0⟩,
     ⟨"bbbbbbbbbbbbbbbbbbbbbbbb", "t", none, "dddddddddddddddddddddddd", [], "u9",
       "beginner", none, [], ["aaaaaaaaaaaaaaaaaaaaaaaa"], [], [], 0, true, 0⟩]
    ⟨"u1", "Admin", "d1", []⟩ "n1" 0
    ⟨"T", none, "dddddddddddddddddddddddd", [], none, none, [],
      ["aaaaaaaaaaaaaaaaaaaaaaaa", "bbbbbbbbbbbbbbbbbbbbbbbb"], none⟩
    ⟨"dddddddddddddddddddddddd", true⟩
    (by decide) (by decide) rfl (by decide) rfl (by decide) (by decide)).mpr (by decide)

end Compyle
